import Mathlib

/-!
Verification development for the command-and-movement orchestration layer
(`src/game/systems/command_service.cpp`) of the Standard-of-Iron RTS.

The C++ code is shallowly embedded: world coordinates (C++ `float`) are
modelled as exact rationals, entity/component storage as a function from
entity ids to optional entities, and the two ledger maps
(`s_pendingRequests`, `s_entityToRequest`) as functions to `Option`.
`QVector3D::length()` (float square root) is modelled by an explicit
oracle parameter `fsqrt : ℚ → ℚ` applied to the squared length, so that
every control-flow decision of the source is represented while staying
computable.  Calls to `Pathfinding::submitPathRequest` are recorded in a
`submitted` log, and every `fetch_add` on the request-id counter is
recorded in an `allocated` log.
-/

unseal Rat.add Rat.sub Rat.mul Rat.inv

namespace CommandService

/-- Integer grid cell, `Pathfinding::Point` (fields `x`, `y` as in the source,
where `y` holds the z-axis cell). -/
structure Point where
  x : Int
  y : Int
deriving DecidableEq, Repr

/-- World-space position restricted to the ground plane: the source only ever
reads `.x()` and `.z()` of the `QVector3D`s involved. -/
structure Vec2 where
  x : ℚ
  z : ℚ
deriving DecidableEq, Repr

/-- `MoveOptions` from `command_service.h` (fields as used by the source). -/
structure MoveOptions where
  groupMove : Bool
  clearAttackIntent : Bool
  allowDirectFallback : Bool
deriving DecidableEq, Repr

/-- `Engine::Core::MovementComponent` fields read or written by the command
service (`goalY`, `lastGoalY`, `target_y` hold z-axis values, as in the
source). -/
structure MovementComponent where
  goalX : ℚ
  goalY : ℚ
  target_x : ℚ
  target_y : ℚ
  hasTarget : Bool
  path : List (ℚ × ℚ)
  pathPending : Bool
  pendingRequestId : Nat
  vx : ℚ
  vz : ℚ
  timeSinceLastPathRequest : ℚ
  lastGoalX : ℚ
  lastGoalY : ℚ
deriving DecidableEq, Repr

/-- Modelled from the spec: default-constructed `MovementComponent`
(`component.h` is not in the sources).  Per the spec's data model a fresh
movement state has no target, no path, no pending request
(`pendingRequestId` 0 = none). -/
def MovementComponent.default : MovementComponent :=
  { goalX := 0, goalY := 0, target_x := 0, target_y := 0, hasTarget := false
    path := [], pathPending := false, pendingRequestId := 0, vx := 0, vz := 0
    timeSinceLastPathRequest := 0, lastGoalX := 0, lastGoalY := 0 }

/-- `Engine::Core::TransformComponent` fields used here: the position and
(for attack stand-off against buildings) the x/z scale. -/
structure TransformComponent where
  posX : ℚ
  posZ : ℚ
  scaleX : ℚ
  scaleZ : ℚ
deriving DecidableEq, Repr

/-- `Engine::Core::AttackComponent` fields used by the command service. -/
structure AttackComponent where
  range : ℚ
  meleeRange : ℚ
  canRanged : Bool
  inMeleeLock : Bool
deriving DecidableEq, Repr

/-- `Engine::Core::AttackTargetComponent`. -/
structure AttackTargetComponent where
  targetId : Nat
  shouldChase : Bool
deriving DecidableEq, Repr

/-- Modelled from the spec: default-constructed `AttackTargetComponent`
(definition not in the sources); both fields are overwritten immediately
after the component is attached in `attack_target`. -/
def AttackTargetComponent.default : AttackTargetComponent :=
  { targetId := 0, shouldChase := false }

/-- `Engine::Core::HoldModeComponent` fields used here. -/
structure HoldModeComponent where
  active : Bool
  standUpDuration : ℚ
  exitCooldown : ℚ
deriving DecidableEq, Repr

/-- `Game::Units::SpawnType`: only `MountedKnight` is distinguished by the
command service (fast-unit check); `Archer` is the fallback value. -/
inductive SpawnType where
  | Archer
  | MountedKnight
  | OtherType
deriving DecidableEq, Repr

/-- `Engine::Core::UnitComponent` fields used here. -/
structure UnitComponent where
  speed : ℚ
  spawn_type : SpawnType
deriving DecidableEq, Repr

/-- An entity with the components the command service touches.  `building`
models `hasComponent<BuildingComponent>()`. -/
structure Entity where
  transform : Option TransformComponent
  movement : Option MovementComponent
  attack : Option AttackComponent
  attackTarget : Option AttackTargetComponent
  holdMode : Option HoldModeComponent
  unit : Option UnitComponent
  building : Bool
deriving DecidableEq, Repr

/-- The entity world: a map from entity id to the entity, `World::getEntity`. -/
def WorldMap : Type := Nat → Option Entity

/-- `CommandService::PendingPathRequest` (ledger value). -/
structure PendingPathRequest where
  entity_id : Nat
  target : Vec2
  options : MoveOptions
  groupMembers : List Nat
  groupTargets : List Vec2
deriving DecidableEq, Repr

/-- The pathfinding collaborator as seen by the command service: the grid
offsets and the walkability predicate (`Pathfinding` internals are external
to this layer). -/
structure Pathfinding where
  gridOffsetX : ℚ
  gridOffsetZ : ℚ
  walkable : Int → Int → Bool

/-- The full mutable state of the command service: the static members of
`CommandService` (`s_pathfinder`, `s_pendingRequests`, `s_entityToRequest`,
`s_nextRequestId`), the entity world it mutates, a log `submitted` of
`submitPathRequest` calls and a log `allocated` of request ids drawn from
the counter. -/
structure ServiceState where
  pathfinder : Option Pathfinding
  pendingRequests : Nat → Option PendingPathRequest
  entityToRequest : Nat → Option Nat
  nextRequestId : Nat
  world : WorldMap
  submitted : List (Nat × Point × Point)
  allocated : List Nat

/-- `same_target_threshold_sq = 0.01F`. -/
def same_target_threshold_sq : ℚ := 1 / 100

/-- `pathfinding_request_cooldown = 1.0F`. -/
def pathfinding_request_cooldown : ℚ := 1

/-- `target_movement_threshold_sq = 4.0F`. -/
def target_movement_threshold_sq : ℚ := 4

/-- Modelled from the spec: `CommandService::DIRECT_PATH_THRESHOLD` is
declared in `command_service.h`, which is not among the sources; the spec's
scenario ("Manhattan distance 2, below a threshold of 4") fixes it at 4. -/
def DIRECT_PATH_THRESHOLD : Int := 4

/-- Modelled from the spec: `CommandService::WAYPOINT_SKIP_THRESHOLD_SQ` is
declared in `command_service.h`, which is not among the sources; the spec
only calls it "a small squared distance".  None of the verified properties
depend on its value. -/
def WAYPOINT_SKIP_THRESHOLD_SQ : ℚ := 1 / 4

/-- `std::round` on a rational: round half away from zero. -/
def cround (q : ℚ) : Int := if 0 ≤ q then ⌊q + 1/2⌋ else ⌈q - 1/2⌉

/-- Squared planar distance between two world points. -/
def distSq (a b : Vec2) : ℚ := (a.x - b.x) * (a.x - b.x) + (a.z - b.z) * (a.z - b.z)

/-- Componentwise sum of world vectors. -/
def vadd (a b : Vec2) : Vec2 := ⟨a.x + b.x, a.z + b.z⟩

/-- Componentwise difference of world vectors. -/
def vsub (a b : Vec2) : Vec2 := ⟨a.x - b.x, a.z - b.z⟩

/-- Scalar division of a world vector. -/
def vdiv (a : Vec2) (q : ℚ) : Vec2 := ⟨a.x / q, a.z / q⟩

/-- Scalar multiplication of a world vector. -/
def vsmul (a : Vec2) (q : ℚ) : Vec2 := ⟨a.x * q, a.z * q⟩

/-- `CommandService::worldToGrid` against a live pathfinder. -/
def worldToGridPf (pf : Pathfinding) (wx wz : ℚ) : Point :=
  ⟨cround (wx - pf.gridOffsetX), cround (wz - pf.gridOffsetZ)⟩

/-- `CommandService::worldToGrid` (lines 56-67). -/
def worldToGrid (pf : Option Pathfinding) (wx wz : ℚ) : Point :=
  match pf with
  | some p => worldToGridPf p wx wz
  | none => ⟨cround wx, cround wz⟩

/-- `CommandService::gridToWorld` against a live pathfinder. -/
def gridToWorldPf (pf : Pathfinding) (p : Point) : Vec2 :=
  ⟨(p.x : ℚ) + pf.gridOffsetX, (p.y : ℚ) + pf.gridOffsetZ⟩

/-- Pointwise update of the request-to-info map. -/
def prUpdate (pr : Nat → Option PendingPathRequest) (k : Nat)
    (v : Option PendingPathRequest) : Nat → Option PendingPathRequest :=
  fun x => if x = k then v else pr x

/-- Pointwise update of the entity-to-request map. -/
def erUpdate (er : Nat → Option Nat) (k : Nat) (v : Option Nat) : Nat → Option Nat :=
  fun x => if x = k then v else er x

/-- Pointwise update of the world. -/
def wUpdate (w : WorldMap) (k : Nat) (v : Option Entity) : WorldMap :=
  fun x => if x = k then v else w x

/-- Replace one entity in the world of a state. -/
def setEntity (st : ServiceState) (eid : Nat) (e : Entity) : ServiceState :=
  { st with world := wUpdate st.world eid (some e) }

/-- Update one entity's movement component (no-op when the entity or its
movement component is absent, mirroring a guarded pointer write). -/
def modifyMovement (st : ServiceState) (eid : Nat)
    (f : MovementComponent → MovementComponent) : ServiceState :=
  match st.world eid with
  | none => st
  | some e =>
    match e.movement with
    | none => st
    | some mv => setEntity st eid { e with movement := some (f mv) }

/-- `s_nextRequestId.fetch_add(1)`: return the current id and bump the
counter, logging the allocation. -/
def allocId (st : ServiceState) : Nat × ServiceState :=
  (st.nextRequestId,
   { st with nextRequestId := st.nextRequestId + 1
             allocated := st.allocated ++ [st.nextRequestId] })

/-- `CommandService::clearPendingRequest` (lines 78-103): remove the
entity's ledger entry; if its request record exists, remove it and erase
every group member's entry that still points at that request id. -/
def clearPendingRequest (st : ServiceState) (eid : Nat) : ServiceState :=
  match st.entityToRequest eid with
  | none => st
  | some rid =>
    let st1 : ServiceState := { st with entityToRequest := erUpdate st.entityToRequest eid none }
    match st1.pendingRequests rid with
    | none => st1
    | some info =>
      let st2 : ServiceState :=
        { st1 with pendingRequests := prUpdate st1.pendingRequests rid none }
      info.groupMembers.foldl
        (fun s m =>
          if s.entityToRequest m = some rid then
            { s with entityToRequest := erUpdate s.entityToRequest m none }
          else s)
        st2

/-- Lines 130-135 / 357-361 / 862-867: a move or attack command makes a unit
stand up from hold stance (and starts the exit cooldown). -/
def exitHold (st : ServiceState) (eid : Nat) : ServiceState :=
  match st.world eid with
  | none => st
  | some e =>
    match e.holdMode with
    | some hm =>
      if hm.active then
        setEntity st eid
          { e with holdMode := some { hm with active := false, exitCooldown := hm.standUpDuration } }
      else st
    | none => st

/-- `addComponent<MovementComponent>` when absent: return the (existing or
fresh default) movement component together with the possibly updated state. -/
def ensureMovement (st : ServiceState) (eid : Nat) : ServiceState × MovementComponent :=
  match st.world eid with
  | none => (st, MovementComponent.default)
  | some e =>
    match e.movement with
    | some mv => (st, mv)
    | none =>
      (setEntity st eid { e with movement := some MovementComponent.default },
       MovementComponent.default)

/-- `removeComponent<AttackTargetComponent>`. -/
def removeAttackTarget (st : ServiceState) (eid : Nat) : ServiceState :=
  match st.world eid with
  | none => st
  | some e => setEntity st eid { e with attackTarget := none }

/-- Write an entity's movement component outright (guarded like
`modifyMovement`). -/
def setMovement (st : ServiceState) (eid : Nat) (mv : MovementComponent) : ServiceState :=
  modifyMovement st eid (fun _ => mv)

/-- Lines 163-180: if a path request is already in flight for this entity
and its stored target is within `same_target_threshold_sq` of the new
destination, refresh the stored options and report a match; a dangling
entity-to-request entry (no request record) is erased. -/
def checkMatchedPending (st : ServiceState) (eid : Nat) (mv : MovementComponent)
    (opts : MoveOptions) (tgt : Vec2) : ServiceState × Bool :=
  if mv.pathPending then
    match st.entityToRequest eid with
    | none => (st, false)
    | some rid =>
      match st.pendingRequests rid with
      | some info =>
        if distSq info.target tgt ≤ same_target_threshold_sq then
          ({ st with pendingRequests :=
               prUpdate st.pendingRequests rid (some { info with options := opts }) }, true)
        else (st, false)
      | none =>
        ({ st with entityToRequest := erUpdate st.entityToRequest eid none }, false)
  else (st, false)

/-- Lines 189-204, condition part: cooldown active and the goal has moved
less than `target_movement_threshold_sq` since the last issued request. -/
def suppressCond (mv : MovementComponent) (tgt : Vec2) : Prop :=
  mv.timeSinceLastPathRequest < pathfinding_request_cooldown ∧
    (mv.lastGoalX - tgt.x) * (mv.lastGoalX - tgt.x) +
      (mv.lastGoalY - tgt.z) * (mv.lastGoalY - tgt.z) < target_movement_threshold_sq

instance (mv : MovementComponent) (tgt : Vec2) : Decidable (suppressCond mv tgt) := by
  unfold suppressCond; infer_instance

/-- Lines 206-224: with no pending request, the command is dropped when the
current immediate target (with an empty path) or the final queued waypoint
already matches the destination. -/
def alreadySatisfied (mv : MovementComponent) (tgt : Vec2) : Prop :=
  ¬mv.pathPending = true ∧
    ((mv.hasTarget = true ∧ mv.path = [] ∧
        (mv.target_x - tgt.x) * (mv.target_x - tgt.x) +
          (mv.target_y - tgt.z) * (mv.target_y - tgt.z) ≤ same_target_threshold_sq) ∨
     (∃ lw, mv.path.getLast? = some lw ∧
        (lw.1 - tgt.x) * (lw.1 - tgt.x) + (lw.2 - tgt.z) * (lw.2 - tgt.z) ≤
          same_target_threshold_sq))

instance (mv : MovementComponent) (tgt : Vec2) : Decidable (alreadySatisfied mv tgt) := by
  unfold alreadySatisfied
  have : Decidable (∃ lw, mv.path.getLast? = some lw ∧
      (lw.1 - tgt.x) * (lw.1 - tgt.x) + (lw.2 - tgt.z) * (lw.2 - tgt.z) ≤
        same_target_threshold_sq) := by
    match h : mv.path.getLast? with
    | none => exact .isFalse (by simp [h])
    | some lw =>
      refine decidable_of_iff ((lw.1 - tgt.x) * (lw.1 - tgt.x) +
        (lw.2 - tgt.z) * (lw.2 - tgt.z) ≤ same_target_threshold_sq) ?_
      constructor
      · intro hle; exact ⟨lw, rfl, hle⟩
      · rintro ⟨lw', hlw', hle⟩
        injection hlw' with h2
        subst h2
        exact hle
  infer_instance

/-- The movement-state snap of lines 231-242 / 251-261 / 317-327: immediate
target at the destination, path and pending state cleared, velocity zeroed. -/
def snapMv (mv : MovementComponent) (tgt : Vec2) : MovementComponent :=
  { mv with target_x := tgt.x, target_y := tgt.z, hasTarget := true, path := []
            pathPending := false, pendingRequestId := 0, vx := 0, vz := 0 }

/-- The direct-path variant of the snap (lines 251-265): the snap plus the
cooldown bookkeeping (`timeSinceLastPathRequest := 0`, last goal copied). -/
def snapMvCooldown (mv : MovementComponent) (tgt : Vec2) : MovementComponent :=
  { snapMv mv tgt with timeSinceLastPathRequest := 0, lastGoalX := tgt.x, lastGoalY := tgt.z }

/-- Lines 268-288: inspect an existing ledger entry before submitting a new
request.  A near-identical in-flight target updates the stored options and
skips the new request; a different target erases both the request record and
this entity's entry; a dangling entry is erased. -/
def checkExistingRequest (st : ServiceState) (eid : Nat) (opts : MoveOptions)
    (tgt : Vec2) : ServiceState × Bool :=
  match st.entityToRequest eid with
  | none => (st, false)
  | some rid =>
    match st.pendingRequests rid with
    | some info =>
      if distSq info.target tgt ≤ same_target_threshold_sq then
        ({ st with pendingRequests :=
             prUpdate st.pendingRequests rid (some { info with options := opts }) }, true)
      else
        ({ st with pendingRequests := prUpdate st.pendingRequests rid none
                   entityToRequest := erUpdate st.entityToRequest eid none }, false)
    | none =>
      ({ st with entityToRequest := erUpdate st.entityToRequest eid none }, false)

/-- Lines 294-315: clear current path/target, mark pending, allocate a fresh
request id, register the single-member ledger entry and forward the search
to the pathfinding engine. -/
def issueAsyncRequest (st : ServiceState) (eid : Nat) (mv : MovementComponent)
    (opts : MoveOptions) (tgt : Vec2) (startC endC : Point) : ServiceState :=
  let pr := checkExistingRequest st eid opts tgt
  if pr.2 then pr.1
  else
    let st1 := pr.1
    let mv1 := { mv with path := ([] : List (ℚ × ℚ)), hasTarget := false, vx := 0, vz := 0
                         pathPending := true }
    let al := allocId st1
    let rid := al.1
    let st2 := al.2
    let mv2 := { mv1 with pendingRequestId := rid }
    let st3 : ServiceState :=
      { st2 with
        pendingRequests := prUpdate st2.pendingRequests rid
          (some { entity_id := eid, target := tgt, options := opts
                  groupMembers := [], groupTargets := [] })
        entityToRequest := erUpdate st2.entityToRequest eid (some rid) }
    let st4 : ServiceState := { st3 with submitted := st3.submitted ++ [(rid, startC, endC)] }
    let mv3 := { mv2 with timeSinceLastPathRequest := 0, lastGoalX := tgt.x, lastGoalY := tgt.z }
    setMovement st4 eid mv3

/-- Lines 226-328: the direct-vs-asynchronous decision once the command has
survived deduplication. -/
def resolvePath (st : ServiceState) (eid : Nat) (tr : TransformComponent)
    (mv : MovementComponent) (opts : MoveOptions) (tgt : Vec2) : ServiceState :=
  match st.pathfinder with
  | some pf =>
    let startC := worldToGridPf pf tr.posX tr.posZ
    let endC := worldToGridPf pf tgt.x tgt.z
    if startC = endC then
      clearPendingRequest (setMovement st eid (snapMv mv tgt)) eid
    else
      let dx := (endC.x - startC.x).natAbs
      let dz := (endC.y - startC.y).natAbs
      if (dx : Int) + (dz : Int) ≤ DIRECT_PATH_THRESHOLD ∧ opts.allowDirectFallback = true then
        clearPendingRequest (setMovement st eid (snapMvCooldown mv tgt)) eid
      else
        issueAsyncRequest st eid mv opts tgt startC endC
  | none =>
    clearPendingRequest (setMovement st eid (snapMv mv tgt)) eid

/-- One iteration of the `moveUnits` per-unit loop (lines 124-329). -/
def moveOneUnit (st : ServiceState) (eid : Nat) (tgt : Vec2)
    (opts : MoveOptions) : ServiceState :=
  match st.world eid with
  | none => st
  | some e =>
    let st1 := exitHold st eid
    if (e.attack.map (·.inMeleeLock)).getD false then st1
    else
      match e.transform with
      | none => st1
      | some tr =>
        let em := ensureMovement st1 eid
        let st2 := em.1
        let mv := em.2
        let st3 := if opts.clearAttackIntent then removeAttackTarget st2 eid else st2
        let cm := checkMatchedPending st3 eid mv opts tgt
        let st4 := cm.1
        let mv1 := { mv with goalX := tgt.x, goalY := tgt.z }
        let st5 := setMovement st4 eid mv1
        if cm.2 then st5
        else if suppressCond mv1 tgt ∧ (mv1.hasTarget = true ∨ mv1.pathPending = true) then st5
        else if alreadySatisfied mv1 tgt then st5
        else resolvePath st5 eid tr mv1 opts tgt

/-- The `moveUnits` per-unit loop over the paired unit/target lists. -/
def moveUnitsCore (st : ServiceState) (units : List Nat) (targets : List Vec2)
    (opts : MoveOptions) : ServiceState :=
  (units.zip targets).foldl (fun s p => moveOneUnit s p.1 p.2 opts) st

/-- The per-member record built at the top of `moveGroup` (lines 336-346);
the transform is captured by value since transforms are never mutated by
this layer. -/
structure MemberInfo where
  id : Nat
  target : Vec2
  engaged : Bool
  speed : ℚ
  spawn : SpawnType
  posX : ℚ
  posZ : ℚ
deriving DecidableEq, Repr

/-- One iteration of the member-collection loop of `moveGroup`
(lines 351-394). -/
def buildMemberStep (opts : MoveOptions) (acc : ServiceState × List MemberInfo)
    (p : Nat × Vec2) : ServiceState × List MemberInfo :=
  let st := acc.1
  match st.world p.1 with
  | none => acc
  | some e =>
    let st := exitHold st p.1
    match e.transform with
    | none => (st, acc.2)
    | some tr =>
      let st := (ensureMovement st p.1).1
      let engaged0 := e.attackTarget.isSome
      let st := if opts.clearAttackIntent then removeAttackTarget st p.1 else st
      let engaged := if opts.clearAttackIntent then false else engaged0
      let speed := match e.unit with
        | some uc => max (1/10 : ℚ) uc.speed
        | none => 1
      let spawn := match e.unit with
        | some uc => uc.spawn_type
        | none => SpawnType.Archer
      (st, acc.2 ++ [{ id := p.1, target := p.2, engaged := engaged, speed := speed
                       spawn := spawn, posX := tr.posX, posZ := tr.posZ }])

/-- Lines 351-394: collect the valid members of a group command, exiting
hold stance, lazily attaching movement state and classifying engagement. -/
def buildMembers (st : ServiceState) (units : List Nat) (targets : List Vec2)
    (opts : MoveOptions) : ServiceState × List MemberInfo :=
  (units.zip targets).foldl (buildMemberStep opts) (st, [])

/-- Lines 430-438: a member's destination cell is rejected when a grid
coordinate is negative or the cell is not walkable. -/
def invalidTarget (pf : Pathfinding) (t : Vec2) : Bool :=
  let g := worldToGridPf pf t.x t.z
  decide (g.x < 0) || decide (g.y < 0) || !pf.walkable g.x g.y

/-- Sum of a list of rationals. -/
def qsum (l : List ℚ) : ℚ := l.foldl (· + ·) 0

/-- Componentwise sum of a list of world vectors. -/
def vsum (l : List Vec2) : Vec2 := l.foldl vadd ⟨0, 0⟩

/-- `std::clamp`. -/
def clampQ (v lo hi : ℚ) : ℚ := if v < lo then lo else if hi < v then hi else v

/-- Lines 583-591: the member whose destination is closest (squared
distance, strict improvement, first wins) to the destination centroid. -/
def electLeader (avg : Vec2) : MemberInfo → List MemberInfo → MemberInfo
  | best, [] => best
  | best, m :: rest =>
    if distSq m.target avg < distSq best.target avg then electLeader avg m rest
    else electLeader avg best rest

/-- The movement write of lines 599-615 applied to each regroup member:
record its goal, cancel its ledger entry and reset it to "no target, no
path". -/
def resetRegroupMember (st : ServiceState) (m : MemberInfo) : ServiceState :=
  let st := modifyMovement st m.id
    (fun mv => { mv with goalX := m.target.x, goalY := m.target.z })
  let st := clearPendingRequest st m.id
  modifyMovement st m.id
    (fun mv => { mv with target_x := m.posX, target_y := m.posZ, hasTarget := false
                         vx := 0, vz := 0, path := [], pathPending := false
                         pendingRequestId := 0 })

/-- The direct-target write of lines 622-627 / 635-639 (and, with the
cooldown bookkeeping of lines 651-659, the leader-direct shortcut). -/
def setMemberDirect (withCooldown : Bool) (st : ServiceState) (m : MemberInfo) : ServiceState :=
  modifyMovement st m.id (fun mv =>
    let mv := { mv with target_x := m.target.x, target_y := m.target.z, hasTarget := true }
    if withCooldown then
      { mv with timeSinceLastPathRequest := 0, lastGoalX := m.target.x, lastGoalY := m.target.z }
    else mv)

/-- The per-member pending marking of lines 666-676: mark the member's
movement state pending on the shared request and stamp its cooldown. -/
def pendingMarkStep (rid : Nat) (s : ServiceState) (m : MemberInfo) : ServiceState :=
  modifyMovement s m.id (fun mv =>
    { mv with pathPending := true, pendingRequestId := rid
              timeSinceLastPathRequest := 0
              lastGoalX := m.target.x, lastGoalY := m.target.z })

/-- The per-member ledger registration of lines 690-692. -/
def registerStep (rid : Nat) (s : ServiceState) (m : MemberInfo) : ServiceState :=
  { s with entityToRequest := erUpdate s.entityToRequest m.id (some rid) }

/-- Lines 663-694: the asynchronous tail of formation pathing — allocate
one shared request id, mark every member pending on it, register the single
ledger entry owned by the leader and submit the leader's search. -/
def formationAsync (st : ServiceState) (members : List MemberInfo)
    (opts : MoveOptions) (leader : MemberInfo) (startC endC : Point) : ServiceState :=
  let al := allocId st
  let rid := al.1
  let st := members.foldl (pendingMarkStep rid) al.2
  let info : PendingPathRequest :=
    { entity_id := leader.id, target := leader.target, options := opts
      groupMembers := members.map (·.id), groupTargets := members.map (·.target) }
  let st : ServiceState :=
    { st with pendingRequests := prUpdate st.pendingRequests rid (some info) }
  let st := members.foldl (registerStep rid) st
  { st with submitted := st.submitted ++ [(rid, startC, endC)] }

/-- Lines 575-695: formation pathing for the regroup set — elect the
leader, reset every member, then either snap/direct per the leader's cells
or allocate one shared request, mark every member pending on it, register
the single ledger entry and submit the leader's search. -/
def formationPath (st : ServiceState) (members : List MemberInfo)
    (opts : MoveOptions) : ServiceState :=
  match members with
  | [] => st
  | m0 :: rest =>
    let avg := vdiv (vsum (members.map (·.target))) (members.length : ℚ)
    let leader := electLeader avg m0 rest
    let leaderTarget := leader.target
    let st := members.foldl resetRegroupMember st
    match st.pathfinder with
    | none => members.foldl (setMemberDirect false) st
    | some pf =>
      let startC := worldToGridPf pf leader.posX leader.posZ
      let endC := worldToGridPf pf leaderTarget.x leaderTarget.z
      if startC = endC then members.foldl (setMemberDirect false) st
      else
        let dx := (endC.x - startC.x).natAbs
        let dz := (endC.y - startC.y).natAbs
        if (dx : Int) + (dz : Int) ≤ DIRECT_PATH_THRESHOLD ∧ opts.allowDirectFallback = true then
          members.foldl (setMemberDirect true) st
        else formationAsync st members opts leader startC endC

/-- Lines 452-573: the cohesion heuristics on the non-engaged members —
near-destination shortcut, advance-vs-regroup split, individual direct
moves for advancing members, then formation pathing for the regroup set.
`fsqrt` is the float-square-root oracle behind `QVector3D::length()`. -/
def groupPlan (fsqrt : ℚ → ℚ) (st : ServiceState) (members : List MemberInfo)
    (opts : MoveOptions) : ServiceState :=
  let n : ℚ := (members.length : ℚ)
  let positions := members.map (fun m => (⟨m.posX, m.posZ⟩ : Vec2))
  let positionCentroid := vdiv (vsum positions) n
  let speedSum := qsum (members.map (·.speed))
  let toTarget := fun (m : MemberInfo) => fsqrt (distSq ⟨m.posX, m.posZ⟩ m.target)
  let toCentroid := fun (m : MemberInfo) => fsqrt (distSq ⟨m.posX, m.posZ⟩ positionCentroid)
  let targetDistanceSum := qsum (members.map toTarget)
  let maxTargetDistance := (members.map toTarget).foldl max 0
  let centroidDistanceSum := qsum (members.map toCentroid)
  let avgTargetDistance := if members.isEmpty then 0 else targetDistanceSum / n
  let avgScatter := if members.isEmpty then 0 else centroidDistanceSum / n
  let avgSpeed := if members.isEmpty then 0 else speedSum / n
  let nearThreshold := clampQ (avgTargetDistance * (1/2)) 4 12
  if maxTargetDistance ≤ nearThreshold then
    moveUnitsCore st (members.map (·.id)) (members.map (·.target))
      { opts with groupMove := false }
  else
    let scatterThreshold := max avgScatter (5/2)
    let shouldAdvance := fun (m : MemberInfo) =>
      let nearDestination := decide (toTarget m ≤ nearThreshold)
      let farFromGroup := decide (scatterThreshold * (3/2) < toCentroid m)
      let fastUnit := decide (avgSpeed + 1/2 ≤ m.speed) || decide (m.spawn = SpawnType.MountedKnight)
      nearDestination ||
        (fastUnit && decide (toTarget m ≤ nearThreshold * (3/2))) ||
        (farFromGroup && decide (toTarget m ≤ nearThreshold * 2))
    let directMembers := members.filter shouldAdvance
    let regroupMembers := members.filter (fun m => !shouldAdvance m)
    let st :=
      if directMembers.isEmpty then st
      else moveUnitsCore st (directMembers.map (·.id)) (directMembers.map (·.target))
        { opts with groupMove := false }
    if regroupMembers.length ≤ 1 then
      match regroupMembers with
      | [] => st
      | m :: _ => moveUnitsCore st [m.id] [m.target] { opts with groupMove := false }
    else formationPath st regroupMembers opts

/-- `CommandService::moveGroup` (lines 332-695). -/
def moveGroup (fsqrt : ℚ → ℚ) (st : ServiceState) (units : List Nat)
    (targets : List Vec2) (opts : MoveOptions) : ServiceState :=
  let bm := buildMembers st units targets opts
  let st1 := bm.1
  let members := bm.2
  match members with
  | [] => st1
  | [m] => moveUnitsCore st1 [m.id] [m.target] { opts with groupMove := false }
  | _ =>
    let movingMembers := members.filter (fun m => !m.engaged)
    if movingMembers.isEmpty then st1
    else
      let abort := match st1.pathfinder with
        | some pf => movingMembers.any (fun m => invalidTarget pf m.target)
        | none => false
      if abort then st1
      else groupPlan fsqrt st1 movingMembers opts

/-- `CommandService::moveUnits` with options (lines 111-330): mismatched
lengths are dropped; `groupMove` with more than one unit dispatches to
`moveGroup`; otherwise the per-unit loop runs. -/
def moveUnits (fsqrt : ℚ → ℚ) (st : ServiceState) (units : List Nat)
    (targets : List Vec2) (opts : MoveOptions) : ServiceState :=
  if units.length ≠ targets.length then st
  else if opts.groupMove = true ∧ 1 < units.length then moveGroup fsqrt st units targets opts
  else moveUnitsCore st units targets opts

/-- Lines 766-771: build the world-space waypoint list from a completed
grid path, excluding the start cell and applying the follower offset. -/
def offsetPath (pf : Pathfinding) (pts : List Point) (offset : Vec2) : List (ℚ × ℚ) :=
  (pts.drop 1).map (fun p =>
    let w := gridToWorldPf pf p
    (w.x + offset.x, w.z + offset.z))

/-- Lines 774-784: drop leading waypoints already within
`WAYPOINT_SKIP_THRESHOLD_SQ` of the entity's current position. -/
def prunePath (posX posZ : ℚ) : List (ℚ × ℚ) → List (ℚ × ℚ)
  | [] => []
  | (a, b) :: rest =>
    if (a - posX) * (a - posX) + (b - posZ) * (b - posZ) ≤ WAYPOINT_SKIP_THRESHOLD_SQ then
      prunePath posX posZ rest
    else (a, b) :: rest

/-- The movement-state transformation of the `apply_to_member` lambda
(lines 751-801): an entity no longer pending this request id has its
pending markers force-cleared and is otherwise untouched; a still-pending
entity receives the pruned offset waypoints, or the direct / no-target
fallback when none remain. -/
def applyToMemberMv (pf : Pathfinding) (rid : Nat) (pts : List Point) (fallback : Bool)
    (mv : MovementComponent) (tr : TransformComponent) (target offset : Vec2) :
    MovementComponent :=
  if ¬(mv.pathPending = true ∧ mv.pendingRequestId = rid) then
    { mv with pathPending := false, pendingRequestId := 0 }
  else
    let mv1 := { mv with pathPending := false, pendingRequestId := 0
                         path := ([] : List (ℚ × ℚ))
                         goalX := target.x, goalY := target.z, vx := 0, vz := 0 }
    let hasPath := decide (1 < pts.length)
    let pruned := prunePath tr.posX tr.posZ (offsetPath pf pts offset)
    if hasPath && !pruned.isEmpty then
      { mv1 with path := pruned, target_x := (pruned.headI).1
                 target_y := (pruned.headI).2, hasTarget := true }
    else
      if fallback then
        { mv1 with target_x := target.x, target_y := target.z, hasTarget := true }
      else
        { mv1 with hasTarget := false }

/-- The `apply_to_member` lambda of lines 731-802: reconcile one completed
path onto one target entity (entities missing the needed components are
left alone). -/
def applyToMember (pf : Pathfinding) (rid : Nat) (pts : List Point) (fallback : Bool)
    (w : WorldMap) (memberId : Nat) (target offset : Vec2) : WorldMap :=
  match w memberId with
  | none => w
  | some e =>
    match e.movement, e.transform with
    | some mv, some tr =>
      wUpdate w memberId
        (some { e with movement := some (applyToMemberMv pf rid pts fallback mv tr target offset) })
    | _, _ => w

/-- Pair each group member with its stored target, falling back to the
leader target when the parallel target list is exhausted (the
`idx < groupTargets.size()` guard of lines 840-842). -/
def pairTargets (leaderTarget : Vec2) : List Nat → List Vec2 → List (Nat × Vec2)
  | [], _ => []
  | m :: ms, [] => (m, leaderTarget) :: pairTargets leaderTarget ms []
  | m :: ms, t :: ts => (m, t) :: pairTargets leaderTarget ms ts

/-- Lines 824-845: the deduplicated member list a completed result is
applied to — the owner first (at the leader target), then each listed
group member at its own stored target (or the leader target when the
parallel list is short). -/
def memberPairs (info : PendingPathRequest) : List (Nat × Vec2) :=
  (info.entity_id, info.target) ::
    pairTargets info.target info.groupMembers info.groupTargets

/-- The `add_member` loop with its `processed` deduplication (lines
821-845), folded over `memberPairs`. -/
def reconcileGo (pf : Pathfinding) (rid : Nat) (pts : List Point) (fallback : Bool)
    (leaderTarget : Vec2) :
    List (Nat × Vec2) → List Nat → WorldMap → WorldMap
  | [], _, w => w
  | (i, t) :: rest, done, w =>
    if i ∈ done then reconcileGo pf rid pts fallback leaderTarget rest done w
    else
      reconcileGo pf rid pts fallback leaderTarget rest (done ++ [i])
        (applyToMember pf rid pts fallback w i t (vsub t leaderTarget))

/-- Lines 804-818: erase the entity-to-request entries (owner and listed
members) that still point at the consumed request id. -/
def removeResultEntries (rid : Nat) (info : PendingPathRequest)
    (er : Nat → Option Nat) : Nat → Option Nat :=
  (info.entity_id :: info.groupMembers).foldl
    (fun m i => if m i = some rid then erUpdate m i none else m) er

/-- Processing of one completed result inside `processPathResults`
(lines 707-846). -/
def processOneResult (pf : Pathfinding) (st : ServiceState)
    (r : Nat × List Point) : ServiceState :=
  match st.pendingRequests r.1 with
  | none => st
  | some info =>
    let st1 : ServiceState :=
      { st with pendingRequests := prUpdate st.pendingRequests r.1 none }
    let st2 : ServiceState :=
      { st1 with entityToRequest := removeResultEntries r.1 info st1.entityToRequest }
    let w := reconcileGo pf r.1 r.2 info.options.allowDirectFallback info.target
      (memberPairs info) [] st2.world
    { st2 with world := w }

/-- `CommandService::processPathResults` (lines 697-847), with the drained
results of `fetchCompletedPaths` passed as input. -/
def processPathResults (st : ServiceState) (results : List (Nat × List Point)) : ServiceState :=
  match st.pathfinder with
  | none => st
  | some pf => results.foldl (processOneResult pf) st

/-- `addComponent<AttackTargetComponent>` when absent, then set both fields
(lines 869-879). -/
def setAttackTarget (st : ServiceState) (eid : Nat) (targetId : Nat)
    (shouldChase : Bool) : ServiceState :=
  match st.world eid with
  | none => st
  | some e =>
    setEntity st eid
      { e with attackTarget := some { targetId := targetId, shouldChase := shouldChase } }

/-- The attacker's effective range (line 906: `std::max(0.1F, atk->range)`,
default 2 without an attack component). -/
def effectiveRange (attacker : Entity) : ℚ :=
  match attacker.attack with
  | some atk => max (1/10 : ℚ) atk.range
  | none => 2

/-- Lines 907-909: a unit is treated as ranged when it can shoot and its
range exceeds 1.5 times its melee range. -/
def isRangedUnit (attacker : Entity) : Bool :=
  match attacker.attack with
  | some atk => atk.canRanged && decide (atk.range > atk.meleeRange * (3/2))
  | none => false

/-- The desired stand-off distance of lines 916-932: footprint radius plus
clamped range for buildings; near max range for ranged units; near-minimum
range otherwise. -/
def desiredStandOffDistance (attacker targetEnt : Entity)
    (t_trans : TransformComponent) : ℚ :=
  let range := effectiveRange attacker
  if targetEnt.building then
    max t_trans.scaleX t_trans.scaleZ * (1/2) + max (range - 1/5) (1/5)
  else
    if isRangedUnit attacker then range * (17/20) else max (range - 1/5) (1/5)

/-- Lines 901-934: the stand-off destination for one chasing attacker. -/
def standOffPosition (fsqrt : ℚ → ℚ) (attacker : Entity) (targetEnt : Entity)
    (t_trans att_trans : TransformComponent) : Vec2 :=
  let targetPos : Vec2 := ⟨t_trans.posX, t_trans.posZ⟩
  let attackerPos : Vec2 := ⟨att_trans.posX, att_trans.posZ⟩
  let direction := vsub targetPos attackerPos
  let distance := fsqrt (distSq targetPos attackerPos)
  if distance > 1/1000 then
    let dirN := vdiv direction distance
    let desiredDistance := desiredStandOffDistance attacker targetEnt t_trans
    if distance > desiredDistance + 3/20 then
      vsub targetPos (vsmul dirN desiredDistance)
    else targetPos
  else targetPos

/-- Within the 0.15 margin of the desired stand-off distance, the computed
stand-off destination is the target's own position. -/
theorem standOffPosition_within (fsqrt : ℚ → ℚ) (attacker targetEnt : Entity)
    (t_trans att_trans : TransformComponent)
    (hmargin : ¬(fsqrt (distSq ⟨t_trans.posX, t_trans.posZ⟩ ⟨att_trans.posX, att_trans.posZ⟩) >
      desiredStandOffDistance attacker targetEnt t_trans + 3/20)) :
    standOffPosition fsqrt attacker targetEnt t_trans att_trans =
      ⟨t_trans.posX, t_trans.posZ⟩ := by
  simp only [standOffPosition]
  rw [if_neg hmargin]
  split <;> rfl

/-- One iteration of the `attack_target` per-unit loop (lines 856-956). -/
def attackOneUnit (fsqrt : ℚ → ℚ) (st : ServiceState) (eid : Nat)
    (targetId : Nat) (shouldChase : Bool) : ServiceState :=
  match st.world eid with
  | none => st
  | some _ =>
    let st := exitHold st eid
    let st := setAttackTarget st eid targetId shouldChase
    if shouldChase = false then st
    else
      match st.world targetId with
      | none => st
      | some targetEnt =>
        match st.world eid with
        | none => st
        | some e =>
          match targetEnt.transform, e.transform with
          | some t_trans, some att_trans =>
            let desiredPos := standOffPosition fsqrt e targetEnt t_trans att_trans
            let opts : MoveOptions :=
              { groupMove := false, clearAttackIntent := false, allowDirectFallback := true }
            let st := moveUnits fsqrt st [eid] [desiredPos] opts
            let em := ensureMovement st eid
            setMovement em.1 eid
              { em.2 with target_x := desiredPos.x, target_y := desiredPos.z
                          goalX := desiredPos.x, goalY := desiredPos.z
                          hasTarget := true, path := [] }
          | _, _ => st

/-- `CommandService::attack_target` (lines 849-957). -/
def attack_target (fsqrt : ℚ → ℚ) (st : ServiceState) (units : List Nat)
    (targetId : Nat) (shouldChase : Bool) : ServiceState :=
  if targetId = 0 then st
  else units.foldl (fun s u => attackOneUnit fsqrt s u targetId shouldChase) st

/-- `CommandService::initialize` (lines 39-51): fresh pathfinder with the
centering offsets, cleared ledger maps, counter reset to 1.  The walkability
predicate of the freshly built grid is external input (the `Pathfinding`
constructor is not part of this layer).  The world itself is owned by the
caller and survives. -/
def initService (st : ServiceState) (worldWidth worldHeight : Int)
    (walk : Int → Int → Bool) : ServiceState :=
  { st with
    pathfinder := some
      { gridOffsetX := -((worldWidth : ℚ) * (1/2) - 1/2)
        gridOffsetZ := -((worldHeight : ℚ) * (1/2) - 1/2)
        walkable := walk }
    pendingRequests := fun _ => none
    entityToRequest := fun _ => none
    nextRequestId := 1
    allocated := [] }

/-- A freshly initialized service over a given entity world (initialize
called once on an empty service). -/
def initState (world : WorldMap) (worldWidth worldHeight : Int)
    (walk : Int → Int → Bool) : ServiceState :=
  initService
    { pathfinder := none, pendingRequests := fun _ => none
      entityToRequest := fun _ => none, nextRequestId := 1, world := world
      submitted := [], allocated := [] }
    worldWidth worldHeight walk

/-- The operations of the command service observable by callers, for
stating invariants over arbitrary operation sequences. -/
inductive Op where
  | mvUnits (fsqrt : ℚ → ℚ) (units : List Nat) (targets : List Vec2) (opts : MoveOptions)
  | mvGroup (fsqrt : ℚ → ℚ) (units : List Nat) (targets : List Vec2) (opts : MoveOptions)
  | procResults (results : List (Nat × List Point))
  | clearReq (eid : Nat)
  | reinit (w h : Int) (walk : Int → Int → Bool)

/-- Apply one operation. -/
def applyOp (st : ServiceState) : Op → ServiceState
  | .mvUnits fsqrt units targets opts => moveUnits fsqrt st units targets opts
  | .mvGroup fsqrt units targets opts => moveGroup fsqrt st units targets opts
  | .procResults results => processPathResults st results
  | .clearReq eid => clearPendingRequest st eid
  | .reinit w h walk => initService st w h walk

/-- Apply a sequence of operations. -/
def runOps (st : ServiceState) (ops : List Op) : ServiceState :=
  ops.foldl applyOp st

/-- The movement component of an entity in a state, if any. -/
def movementOf (st : ServiceState) (eid : Nat) : Option MovementComponent :=
  (st.world eid).bind (·.movement)

/-! ### Frame lemmas for the state primitives -/

theorem setEntity_pendingRequests (st : ServiceState) (i : Nat) (e : Entity) :
    (setEntity st i e).pendingRequests = st.pendingRequests := rfl

theorem setEntity_entityToRequest (st : ServiceState) (i : Nat) (e : Entity) :
    (setEntity st i e).entityToRequest = st.entityToRequest := rfl

theorem setEntity_pathfinder (st : ServiceState) (i : Nat) (e : Entity) :
    (setEntity st i e).pathfinder = st.pathfinder := rfl

theorem setEntity_nextRequestId (st : ServiceState) (i : Nat) (e : Entity) :
    (setEntity st i e).nextRequestId = st.nextRequestId := rfl

theorem setEntity_submitted (st : ServiceState) (i : Nat) (e : Entity) :
    (setEntity st i e).submitted = st.submitted := rfl

theorem setEntity_allocated (st : ServiceState) (i : Nat) (e : Entity) :
    (setEntity st i e).allocated = st.allocated := rfl

/-- `exitHold` only rewrites the world. -/
theorem exitHold_frame (st : ServiceState) (i : Nat) :
    (exitHold st i).pendingRequests = st.pendingRequests ∧
    (exitHold st i).entityToRequest = st.entityToRequest ∧
    (exitHold st i).pathfinder = st.pathfinder ∧
    (exitHold st i).nextRequestId = st.nextRequestId ∧
    (exitHold st i).submitted = st.submitted ∧
    (exitHold st i).allocated = st.allocated := by
  unfold exitHold
  split
  · exact ⟨rfl, rfl, rfl, rfl, rfl, rfl⟩
  · split
    · split
      · exact ⟨rfl, rfl, rfl, rfl, rfl, rfl⟩
      · exact ⟨rfl, rfl, rfl, rfl, rfl, rfl⟩
    · exact ⟨rfl, rfl, rfl, rfl, rfl, rfl⟩

/-- `exitHold` does not change any movement component. -/
theorem exitHold_movementOf (st : ServiceState) (i x : Nat) :
    movementOf (exitHold st i) x = movementOf st x := by
  unfold exitHold
  split
  · rfl
  · rename_i e he
    split
    · rename_i hm
      split
      · show movementOf (setEntity st i _) x = movementOf st x
        unfold movementOf setEntity wUpdate
        by_cases hx : x = i
        · subst hx; simp [he]
        · simp [hx]
      · rfl
    · rfl

/-- `exitHold` does not change which entities exist. -/
theorem exitHold_isSome (st : ServiceState) (i x : Nat) :
    ((exitHold st i).world x).isSome = ((st.world x).isSome) := by
  unfold exitHold
  split
  · rfl
  · rename_i e he
    split
    · split
      · show ((setEntity st i _).world x).isSome = _
        unfold setEntity wUpdate
        by_cases hx : x = i
        · subst hx; simp [he]
        · simp [hx]
      · rfl
    · rfl

/-- `removeAttackTarget` only rewrites the world. -/
theorem removeAttackTarget_frame (st : ServiceState) (i : Nat) :
    (removeAttackTarget st i).pendingRequests = st.pendingRequests ∧
    (removeAttackTarget st i).entityToRequest = st.entityToRequest ∧
    (removeAttackTarget st i).pathfinder = st.pathfinder ∧
    (removeAttackTarget st i).nextRequestId = st.nextRequestId ∧
    (removeAttackTarget st i).submitted = st.submitted ∧
    (removeAttackTarget st i).allocated = st.allocated := by
  unfold removeAttackTarget
  split
  · exact ⟨rfl, rfl, rfl, rfl, rfl, rfl⟩
  · exact ⟨rfl, rfl, rfl, rfl, rfl, rfl⟩

/-- `removeAttackTarget` does not change any movement component. -/
theorem removeAttackTarget_movementOf (st : ServiceState) (i x : Nat) :
    movementOf (removeAttackTarget st i) x = movementOf st x := by
  unfold removeAttackTarget
  split
  · rfl
  · rename_i e he
    show movementOf (setEntity st i _) x = movementOf st x
    unfold movementOf setEntity wUpdate
    by_cases hx : x = i
    · subst hx; simp [he]
    · simp [hx]

/-- `removeAttackTarget` does not change which entities exist. -/
theorem removeAttackTarget_isSome (st : ServiceState) (i x : Nat) :
    ((removeAttackTarget st i).world x).isSome = ((st.world x).isSome) := by
  unfold removeAttackTarget
  split
  · rfl
  · rename_i e he
    show (((setEntity st i _).world x)).isSome = _
    unfold setEntity wUpdate
    by_cases hx : x = i
    · subst hx; simp [he]
    · simp [hx]

/-- When the entity already has a movement component, `ensureMovement` is a
pure read. -/
theorem ensureMovement_of_present (st : ServiceState) (i : Nat)
    (mv : MovementComponent) (h : movementOf st i = some mv) :
    ensureMovement st i = (st, mv) := by
  unfold movementOf at h
  unfold ensureMovement
  cases hw : st.world i with
  | none => rw [hw] at h; simp at h
  | some e =>
    rw [hw] at h
    simp only [Option.some_bind] at h
    simp [h]

/-! ### Claim C6: idempotent reconciliation -/

/-- `processOneResult` never touches the pathfinder. -/
theorem processOneResult_pathfinder (pf : Pathfinding) (st : ServiceState)
    (r : Nat × List Point) : (processOneResult pf st r).pathfinder = st.pathfinder := by
  unfold processOneResult
  split <;> rfl

/-- After one result is consumed, its ledger record is gone (or was never
there). -/
theorem processOneResult_pendingRequests_self (pf : Pathfinding) (st : ServiceState)
    (r : Nat × List Point) : (processOneResult pf st r).pendingRequests r.1 = none := by
  unfold processOneResult
  split
  · assumption
  · simp [prUpdate]

/-- A result whose ledger record is absent is discarded without any state
change. -/
theorem processOneResult_of_absent (pf : Pathfinding) (st : ServiceState)
    (r : Nat × List Point) (h : st.pendingRequests r.1 = none) :
    processOneResult pf st r = st := by
  unfold processOneResult
  split
  · rfl
  · rename_i info hinfo; rw [h] at hinfo; cases hinfo

/-- Claim C6 (confirmed).  Idempotent reconciliation: feeding the same
completed path result to `processPathResults` a second time — whether in a
later drain or twice within one drain — has no effect the second time,
because the ledger entry for the request id is removed when the result is
first consumed. -/
theorem claim_C6 (st : ServiceState) (r : Nat × List Point) :
    processPathResults (processPathResults st [r]) [r] = processPathResults st [r] ∧
    processPathResults st [r, r] = processPathResults st [r] := by
  unfold processPathResults
  cases hpf : st.pathfinder with
  | none => simp [hpf]
  | some pf =>
    simp only [List.foldl_cons, List.foldl_nil]
    have hpf' : (processOneResult pf st r).pathfinder = some pf := by
      rw [processOneResult_pathfinder]; exact hpf
    rw [hpf']
    have habs := processOneResult_of_absent pf (processOneResult pf st r) r
      (processOneResult_pendingRequests_self pf st r)
    simp only [List.foldl_cons, List.foldl_nil]
    exact ⟨habs, habs⟩

/-! ### Claim C9: reconciler empty-path fallback -/

/-- The movement state lines 795-801 leave behind when reconciliation finds
no remaining waypoints: pending markers cleared, raw destination as the
immediate target iff `allowDirectFallback` was stored on the request. -/
def emptyPathFallbackMv (mv : MovementComponent) (target : Vec2)
    (fallback : Bool) : MovementComponent :=
  { mv with pathPending := false, pendingRequestId := 0, path := []
            goalX := target.x, goalY := target.z, vx := 0, vz := 0
            target_x := if fallback then target.x else mv.target_x
            target_y := if fallback then target.z else mv.target_y
            hasTarget := fallback }

/-- Claim C9 (confirmed).  For a reconciled result applied to a target
entity that is still pending the result's request id: when, after excluding
the start cell and pruning the leading waypoints near the entity's
position, no waypoints remain, the entity's immediate target is set to its
raw destination with `hasTarget` true exactly when `allowDirectFallback`
was set on the original request options, and otherwise the entity is left
without an active target (`hasTarget` false, immediate target untouched). -/
theorem claim_C9 (pf : Pathfinding) (rid : Nat) (pts : List Point) (fallback : Bool)
    (w : WorldMap) (memberId : Nat) (target offset : Vec2)
    (e : Entity) (mv : MovementComponent) (tr : TransformComponent)
    (hw : w memberId = some e) (hmv : e.movement = some mv) (htr : e.transform = some tr)
    (hpend : mv.pathPending = true ∧ mv.pendingRequestId = rid)
    (hempty : prunePath tr.posX tr.posZ (offsetPath pf pts offset) = []) :
    (applyToMember pf rid pts fallback w memberId target offset) memberId =
      some { e with movement := some (emptyPathFallbackMv mv target fallback) } := by
  have hmvf : applyToMemberMv pf rid pts fallback mv tr target offset =
      emptyPathFallbackMv mv target fallback := by
    unfold applyToMemberMv emptyPathFallbackMv
    rw [if_neg (by simp [hpend.1, hpend.2])]
    simp only [hempty, List.isEmpty_nil, Bool.not_true, Bool.and_false, if_false]
    cases fallback with
    | true => simp
    | false => simp
  unfold applyToMember
  rw [hw]
  simp only [hmv, htr]
  rw [hmvf]
  simp [wUpdate]

/-- Concrete fixtures for the C9 witness: a pathfinder with zero offsets and
an entity at world (1,0) pending request 5. -/
def flatPf : Pathfinding := { gridOffsetX := 0, gridOffsetZ := 0, walkable := fun _ _ => true }

/-- A movement component pending request 5. -/
def c9Mv : MovementComponent := { MovementComponent.default with pathPending := true, pendingRequestId := 5 }

/-- The C9 witness entity. -/
def c9Ent : Entity :=
  { transform := some { posX := 1, posZ := 0, scaleX := 1, scaleZ := 1 }
    movement := some c9Mv
    attack := none, attackTarget := none, holdMode := none, unit := none, building := false }

/-- The C9 witness world. -/
def c9World : WorldMap := fun i => if i = 1 then some c9Ent else none

/-- Witness for claim C9: the single waypoint beyond the start cell is
within the skip threshold of the entity, so pruning empties the path and the
`allowDirectFallback` branch snaps the entity to its raw destination. -/
theorem claim_C9_witness :
    prunePath 1 0 (offsetPath flatPf [⟨0,0⟩, ⟨1,0⟩] ⟨0,0⟩) = [] ∧
    (applyToMember flatPf 5 [⟨0,0⟩, ⟨1,0⟩] true c9World 1 ⟨3,3⟩ ⟨0,0⟩) 1 =
      some { c9Ent with movement := some (emptyPathFallbackMv c9Mv ⟨3,3⟩ true) } := by
  refine ⟨by decide, ?_⟩
  exact claim_C9 flatPf 5 [⟨0,0⟩, ⟨1,0⟩] true c9World 1 ⟨3,3⟩ ⟨0,0⟩ c9Ent c9Mv
    { posX := 1, posZ := 0, scaleX := 1, scaleZ := 1 }
    (by decide) (by decide) (by decide) (by decide) (by decide)

/-! ### Claim C2: reconciler skip-without-mutation -/

/-- The write lines 751-756 perform on an entity that is no longer pending
the processed request id: force-clear the two pending markers, touch
nothing else. -/
def skipClearedMv (mv : MovementComponent) : MovementComponent :=
  { mv with pathPending := false, pendingRequestId := 0 }

/-- An already-cleared movement state is a fixed point of the skip write. -/
theorem skipClearedMv_of_cleared (mv : MovementComponent)
    (h1 : mv.pathPending = false) (h2 : mv.pendingRequestId = 0) :
    skipClearedMv mv = mv := by
  cases mv
  simp only [skipClearedMv]
  simp_all

/-- `applyToMember` never touches entities other than its target. -/
theorem applyToMember_frame (pf : Pathfinding) (rid : Nat) (pts : List Point)
    (fallback : Bool) (w : WorldMap) (i : Nat) (t off : Vec2) (x : Nat) (hx : x ≠ i) :
    (applyToMember pf rid pts fallback w i t off) x = w x := by
  unfold applyToMember
  cases hw : w i with
  | none => rfl
  | some e =>
    cases hm : e.movement with
    | none => cases ht : e.transform <;> simp [hm, ht]
    | some mv =>
      cases ht : e.transform with
      | none => simp [hm, ht]
      | some tr => simp [hm, ht, wUpdate, hx]

/-- The skip case of `applyToMember` (lines 751-756): the entity is not
pending this request id, so only the two pending markers are forced off. -/
theorem applyToMember_skip (pf : Pathfinding) (rid : Nat) (pts : List Point)
    (fallback : Bool) (w : WorldMap) (i : Nat) (t off : Vec2)
    (e : Entity) (mv : MovementComponent) (tr : TransformComponent)
    (hw : w i = some e) (hmv : e.movement = some mv) (htr : e.transform = some tr)
    (hskip : ¬(mv.pathPending = true ∧ mv.pendingRequestId = rid)) :
    applyToMember pf rid pts fallback w i t off =
      wUpdate w i (some { e with movement := some (skipClearedMv mv) }) := by
  unfold applyToMember
  rw [hw]
  simp only [hmv, htr]
  have : applyToMemberMv pf rid pts fallback mv tr t off = skipClearedMv mv := by
    unfold applyToMemberMv skipClearedMv
    rw [if_pos hskip]
  rw [this]

/-- `reconcileGo` leaves ids outside its pair list untouched. -/
theorem reconcileGo_frame (pf : Pathfinding) (rid : Nat) (pts : List Point)
    (fallback : Bool) (lt : Vec2) (pairs : List (Nat × Vec2)) (done : List Nat)
    (w : WorldMap) (x : Nat) (hx : ∀ p ∈ pairs, p.1 ≠ x) :
    (reconcileGo pf rid pts fallback lt pairs done w) x = w x := by
  induction pairs generalizing done w with
  | nil => rfl
  | cons p rest ih =>
    unfold reconcileGo
    have hp : p.1 ≠ x := hx p (List.mem_cons_self p rest)
    have hr : ∀ q ∈ rest, q.1 ≠ x := fun q hq => hx q (List.mem_cons_of_mem p hq)
    split
    · exact ih done w hr
    · rw [ih (done ++ [p.1]) _ hr]
      exact applyToMember_frame pf rid pts fallback w p.1 p.2 _ x (fun h => hp h.symm)

/-- `reconcileGo` leaves already-processed ids untouched. -/
theorem reconcileGo_done (pf : Pathfinding) (rid : Nat) (pts : List Point)
    (fallback : Bool) (lt : Vec2) (pairs : List (Nat × Vec2)) (done : List Nat)
    (w : WorldMap) (x : Nat) (hx : x ∈ done) :
    (reconcileGo pf rid pts fallback lt pairs done w) x = w x := by
  induction pairs generalizing done w with
  | nil => rfl
  | cons p rest ih =>
    unfold reconcileGo
    split
    · exact ih done w hx
    · rename_i hnd
      have hp : p.1 ≠ x := fun h => hnd (h ▸ hx)
      rw [ih (done ++ [p.1]) _ (List.mem_append_left _ hx)]
      exact applyToMember_frame pf rid pts fallback w p.1 p.2 _ x (fun h => hp h.symm)

/-- Through the deduplicated reconcile loop, a listed entity that is not
pending the processed request id ends with exactly the skip write applied. -/
theorem reconcileGo_skip (pf : Pathfinding) (rid : Nat) (pts : List Point)
    (fallback : Bool) (lt : Vec2) (pairs : List (Nat × Vec2)) (done : List Nat)
    (w : WorldMap) (x : Nat) (e : Entity) (mv : MovementComponent)
    (tr : TransformComponent)
    (hx : x ∉ done) (hmem : x ∈ pairs.map Prod.fst)
    (hw : w x = some e) (hmv : e.movement = some mv) (htr : e.transform = some tr)
    (hskip : ¬(mv.pathPending = true ∧ mv.pendingRequestId = rid)) :
    (reconcileGo pf rid pts fallback lt pairs done w) x =
      some { e with movement := some (skipClearedMv mv) } := by
  induction pairs generalizing done w with
  | nil => simp at hmem
  | cons p rest ih =>
    unfold reconcileGo
    rcases List.mem_cons.mp hmem with hpx | hrest
    · -- x is the head pair's id
      subst hpx
      split
      · exact absurd ‹p.1 ∈ done› hx
      · rw [applyToMember_skip pf rid pts fallback w p.1 p.2 _ e mv tr hw hmv htr hskip]
        rw [reconcileGo_done pf rid pts fallback lt rest (done ++ [p.1]) _ p.1
          (List.mem_append_right _ (List.mem_singleton.mpr rfl))]
        simp [wUpdate]
    · by_cases hpx : p.1 = x
      · subst hpx
        split
        · exact absurd ‹p.1 ∈ done› hx
        · rw [applyToMember_skip pf rid pts fallback w p.1 p.2 _ e mv tr hw hmv htr hskip]
          rw [reconcileGo_done pf rid pts fallback lt rest (done ++ [p.1]) _ p.1
            (List.mem_append_right _ (List.mem_singleton.mpr rfl))]
          simp [wUpdate]
      · split
        · exact ih done w hx hrest hw
        · have hw' : (applyToMember pf rid pts fallback w p.1 p.2 (vsub p.2 lt)) x = some e := by
            rw [applyToMember_frame pf rid pts fallback w p.1 p.2 _ x (fun h => hpx h.symm)]
            exact hw
          refine ih (done ++ [p.1]) _ ?_ hrest hw'
          intro hcon
          rcases List.mem_append.mp hcon with h | h
          · exact hx h
          · exact hpx (List.mem_singleton.mp h).symm

/-- The first components of `pairTargets` are exactly the member list. -/
theorem pairTargets_map_fst (lt : Vec2) (ms : List Nat) (ts : List Vec2) :
    (pairTargets lt ms ts).map Prod.fst = ms := by
  induction ms generalizing ts with
  | nil => cases ts <;> rfl
  | cons m ms ih =>
    cases ts with
    | nil => simpa [pairTargets] using ih []
    | cons t ts => simpa [pairTargets] using ih ts

/-- The ids a result is applied to are the owner followed by the stored
group members. -/
theorem memberPairs_map_fst (info : PendingPathRequest) :
    (memberPairs info).map Prod.fst = info.entity_id :: info.groupMembers := by
  unfold memberPairs
  simp [pairTargets_map_fst]

/-- Claim C2, amended (the claim as stated is refuted by
`claim_C2_counterexample`).  For a completed path result and an entity
listed in its ledger entry (owner or follower) that is no longer pending
the same request id: the reconciler forces `pathPending := false` and
`pendingRequestId := 0` and leaves every other movement field unchanged; in
particular, when the entity's pending markers were already clear, its
movement state is completely unchanged. -/
theorem claim_C2 (st : ServiceState) (pf : Pathfinding) (rid : Nat) (pts : List Point)
    (info : PendingPathRequest) (eid : Nat) (e : Entity) (mv : MovementComponent)
    (tr : TransformComponent)
    (hpf : st.pathfinder = some pf)
    (hinfo : st.pendingRequests rid = some info)
    (hmem : eid = info.entity_id ∨ eid ∈ info.groupMembers)
    (hw : st.world eid = some e) (hmv : e.movement = some mv) (htr : e.transform = some tr)
    (hskip : ¬(mv.pathPending = true ∧ mv.pendingRequestId = rid)) :
    movementOf (processPathResults st [(rid, pts)]) eid = some (skipClearedMv mv) ∧
    (mv.pathPending = false → mv.pendingRequestId = 0 →
      movementOf (processPathResults st [(rid, pts)]) eid = movementOf st eid) := by
  have hrun : processPathResults st [(rid, pts)] = processOneResult pf st (rid, pts) := by
    unfold processPathResults
    rw [hpf]
    rfl
  have hmem' : eid ∈ ((memberPairs info).map Prod.fst) := by
    rw [memberPairs_map_fst]
    rcases hmem with h | h
    · exact h ▸ List.mem_cons_self _ _
    · exact List.mem_cons_of_mem _ h
  have hone : movementOf (processOneResult pf st (rid, pts)) eid = some (skipClearedMv mv) := by
    unfold processOneResult
    rw [hinfo]
    unfold movementOf
    show (reconcileGo pf rid pts info.options.allowDirectFallback info.target
        (memberPairs info) [] st.world eid).bind (·.movement) = _
    rw [reconcileGo_skip pf rid pts info.options.allowDirectFallback info.target
      (memberPairs info) [] st.world eid e mv tr (List.not_mem_nil eid) hmem' hw hmv htr hskip]
    rfl
  refine ⟨hrun ▸ hone, fun h1 h2 => ?_⟩
  rw [hrun, hone, skipClearedMv_of_cleared mv h1 h2]
  unfold movementOf
  rw [hw]
  simp [hmv]

/-- The C2 fixture: an entity pending request id 7 while its superseded
request 5 still sits in the ledger with the entity as owner. -/
def c2Mv : MovementComponent :=
  { MovementComponent.default with pathPending := true, pendingRequestId := 7 }

/-- The C2 fixture entity. -/
def c2Ent : Entity :=
  { transform := some { posX := 0, posZ := 0, scaleX := 1, scaleZ := 1 }
    movement := some c2Mv
    attack := none, attackTarget := none, holdMode := none, unit := none, building := false }

/-- The C2 fixture ledger entry for request 5, owned by entity 1. -/
def c2Info : PendingPathRequest :=
  { entity_id := 1, target := ⟨3, 3⟩
    options := { groupMove := false, clearAttackIntent := false, allowDirectFallback := true }
    groupMembers := [], groupTargets := [] }

/-- The C2 fixture state. -/
def c2St : ServiceState :=
  { pathfinder := some flatPf
    pendingRequests := fun r => if r = 5 then some c2Info else none
    entityToRequest := fun e => if e = 1 then some 5 else none
    nextRequestId := 8
    world := fun i => if i = 1 then some c2Ent else none
    submitted := [], allocated := [] }

/-- Counterexample to claim C2 as stated: entity 1 is the owner listed in
request 5's ledger entry but is pending a different request id (7), and
processing the completed result for request 5 mutates its movement state
(the pending marker fields are zeroed), so the reconciler does not leave it
"completely unchanged". -/
theorem claim_C2_counterexample :
    (c2St.pendingRequests 5).map (·.entity_id) = some 1 ∧
    movementOf c2St 1 = some c2Mv ∧
    c2Mv.pathPending = true ∧ c2Mv.pendingRequestId = 7 ∧
    movementOf (processPathResults c2St [(5, [⟨0,0⟩, ⟨1,1⟩])]) 1 ≠ movementOf c2St 1 := by
  refine ⟨rfl, rfl, rfl, rfl, ?_⟩
  decide

/-- Witness for the amended claim C2 at the concrete fixture. -/
theorem claim_C2_witness :
    ¬(c2Mv.pathPending = true ∧ c2Mv.pendingRequestId = 5) ∧
    movementOf (processPathResults c2St [(5, [⟨0,0⟩, ⟨1,1⟩])]) 1 = some (skipClearedMv c2Mv) := by
  refine ⟨by decide, ?_⟩
  exact (claim_C2 c2St flatPf 5 [⟨0,0⟩, ⟨1,1⟩] c2Info 1 c2Ent c2Mv
    { posX := 0, posZ := 0, scaleX := 1, scaleZ := 1 }
    rfl rfl (Or.inl rfl) rfl rfl rfl (by decide)).1

/-! ### Claim C3: cooldown suppression -/

/-- `setMovement` only rewrites the world. -/
theorem setMovement_frame (st : ServiceState) (i : Nat) (m : MovementComponent) :
    (setMovement st i m).pendingRequests = st.pendingRequests ∧
    (setMovement st i m).entityToRequest = st.entityToRequest ∧
    (setMovement st i m).pathfinder = st.pathfinder ∧
    (setMovement st i m).nextRequestId = st.nextRequestId ∧
    (setMovement st i m).submitted = st.submitted ∧
    (setMovement st i m).allocated = st.allocated := by
  unfold setMovement modifyMovement
  split
  · exact ⟨rfl, rfl, rfl, rfl, rfl, rfl⟩
  · split
    · exact ⟨rfl, rfl, rfl, rfl, rfl, rfl⟩
    · exact ⟨rfl, rfl, rfl, rfl, rfl, rfl⟩

/-- Writing a movement component to an entity that has one lands as written. -/
theorem setMovement_movementOf_self (st : ServiceState) (i : Nat)
    (m mv : MovementComponent) (h : movementOf st i = some mv) :
    movementOf (setMovement st i m) i = some m := by
  unfold movementOf at h ⊢
  unfold setMovement modifyMovement
  cases hw : st.world i with
  | none => rw [hw] at h; simp at h
  | some e =>
    rw [hw] at h
    simp only [Option.some_bind] at h
    simp only [h]
    simp [setEntity, wUpdate]

/-- `setMovement` leaves other entities' movement untouched. -/
theorem setMovement_movementOf_other (st : ServiceState) (i : Nat)
    (m : MovementComponent) (x : Nat) (hx : x ≠ i) :
    movementOf (setMovement st i m) x = movementOf st x := by
  unfold movementOf setMovement modifyMovement
  cases hw : st.world i with
  | none => rfl
  | some e =>
    cases hm : e.movement with
    | none => simp [hm]
    | some mv => simp [hm, setEntity, wUpdate, hx]

/-- `setMovement` preserves entity existence. -/
theorem setMovement_isSome (st : ServiceState) (i : Nat) (m : MovementComponent) (x : Nat) :
    ((setMovement st i m).world x).isSome = (st.world x).isSome := by
  unfold setMovement modifyMovement
  cases hw : st.world i with
  | none => rfl
  | some e =>
    cases hm : e.movement with
    | none => simp [hm]
    | some mv =>
      simp only [hm]
      show ((setEntity st i _).world x).isSome = _
      unfold setEntity wUpdate
      by_cases hx : x = i
      · subst hx; simp [hw]
      · simp [hx]

/-- `checkMatchedPending` touches only the two ledger maps, and never adds
or removes a request record (a matched request keeps its record with
refreshed options). -/
theorem checkMatchedPending_frame (st : ServiceState) (eid : Nat)
    (mv : MovementComponent) (opts : MoveOptions) (tgt : Vec2) :
    (checkMatchedPending st eid mv opts tgt).1.pathfinder = st.pathfinder ∧
    (checkMatchedPending st eid mv opts tgt).1.nextRequestId = st.nextRequestId ∧
    (checkMatchedPending st eid mv opts tgt).1.submitted = st.submitted ∧
    (checkMatchedPending st eid mv opts tgt).1.allocated = st.allocated ∧
    (checkMatchedPending st eid mv opts tgt).1.world = st.world ∧
    (∀ r, ((checkMatchedPending st eid mv opts tgt).1.pendingRequests r).isSome =
      (st.pendingRequests r).isSome) := by
  unfold checkMatchedPending
  split
  · split
    · exact ⟨rfl, rfl, rfl, rfl, rfl, fun _ => rfl⟩
    · rename_i rid her
      split
      · rename_i info hinfo
        split
        · refine ⟨rfl, rfl, rfl, rfl, rfl, fun r => ?_⟩
          show (prUpdate st.pendingRequests rid _ r).isSome = _
          unfold prUpdate
          by_cases hr : r = rid
          · subst hr; simp [hinfo]
          · simp [hr]
        · exact ⟨rfl, rfl, rfl, rfl, rfl, fun _ => rfl⟩
      · exact ⟨rfl, rfl, rfl, rfl, rfl, fun _ => rfl⟩
  · exact ⟨rfl, rfl, rfl, rfl, rfl, fun _ => rfl⟩

/-- A single-unit `moveUnits` call is exactly one iteration of the per-unit
loop. -/
theorem moveUnits_single (fsqrt : ℚ → ℚ) (st : ServiceState) (eid : Nat)
    (tgt : Vec2) (opts : MoveOptions) :
    moveUnits fsqrt st [eid] [tgt] opts = moveOneUnit st eid tgt opts := by
  unfold moveUnits moveUnitsCore
  simp

/-- Claim C3, amended (the claim as stated is refuted by
`claim_C3_counterexample`).  The cooldown/thrash window (time since the
last path request below 1 s and the goal moved by squared distance less
than 4) suppresses a single-unit move only when the entity already has a
target or a pending request: then no search is submitted, no request id is
allocated, no ledger record is added or removed, and the entity's movement
state is unchanged except for the goal fields, which record the new
destination.  Without an existing target or pending request the cooldown
does not prevent a new path request. -/
theorem claim_C3 (st : ServiceState) (eid : Nat) (tgt : Vec2) (opts : MoveOptions)
    (fsqrt : ℚ → ℚ) (e : Entity) (tr : TransformComponent) (mv : MovementComponent)
    (hw : st.world eid = some e)
    (htr : e.transform = some tr)
    (hlock : (e.attack.map (·.inMeleeLock)).getD false = false)
    (hmv : e.movement = some mv)
    (hcool : suppressCond mv tgt)
    (hbusy : mv.hasTarget = true ∨ mv.pathPending = true) :
    (moveUnits fsqrt st [eid] [tgt] opts).submitted = st.submitted ∧
    (moveUnits fsqrt st [eid] [tgt] opts).nextRequestId = st.nextRequestId ∧
    (∀ r, ((moveUnits fsqrt st [eid] [tgt] opts).pendingRequests r).isSome =
      (st.pendingRequests r).isSome) ∧
    movementOf (moveUnits fsqrt st [eid] [tgt] opts) eid =
      some { mv with goalX := tgt.x, goalY := tgt.z } := by
  have hmv0 : movementOf st eid = some mv := by
    unfold movementOf; rw [hw]; simp [hmv]
  have hmv1 : movementOf (exitHold st eid) eid = some mv :=
    (exitHold_movementOf st eid eid).trans hmv0
  have hens : ensureMovement (exitHold st eid) eid = (exitHold st eid, mv) :=
    ensureMovement_of_present _ eid mv hmv1
  have hred : moveUnits fsqrt st [eid] [tgt] opts =
      setMovement
        (checkMatchedPending
          (if opts.clearAttackIntent = true then removeAttackTarget (exitHold st eid) eid
           else exitHold st eid) eid mv opts tgt).1
        eid { mv with goalX := tgt.x, goalY := tgt.z } := by
    rw [moveUnits_single]
    unfold moveOneUnit
    rw [hw]
    simp only [hlock, Bool.false_eq_true, if_false, htr, hens]
    set st3 := (if opts.clearAttackIntent = true then removeAttackTarget (exitHold st eid) eid
      else exitHold st eid) with hst3
    by_cases hcm : (checkMatchedPending st3 eid mv opts tgt).2 = true
    · simp [hcm]
    · simp only [Bool.not_eq_true] at hcm
      simp only [hcm, Bool.false_eq_true, if_false]
      rw [if_pos]
      constructor
      · exact hcool
      · simpa using hbusy
  set st3 := (if opts.clearAttackIntent = true then removeAttackTarget (exitHold st eid) eid
    else exitHold st eid) with hst3
  have hst3sub : st3.submitted = st.submitted := by
    rw [hst3]
    by_cases h : opts.clearAttackIntent = true
    · simp only [h, if_true]
      rw [(removeAttackTarget_frame _ _).2.2.2.2.1, (exitHold_frame _ _).2.2.2.2.1]
    · simp only [h, if_false]
      exact (exitHold_frame _ _).2.2.2.2.1
  have hst3next : st3.nextRequestId = st.nextRequestId := by
    rw [hst3]
    by_cases h : opts.clearAttackIntent = true
    · simp only [h, if_true]
      rw [(removeAttackTarget_frame _ _).2.2.2.1, (exitHold_frame _ _).2.2.2.1]
    · simp only [h, if_false]
      exact (exitHold_frame _ _).2.2.2.1
  have hst3pr : st3.pendingRequests = st.pendingRequests := by
    rw [hst3]
    by_cases h : opts.clearAttackIntent = true
    · simp only [h, if_true]
      rw [(removeAttackTarget_frame _ _).1, (exitHold_frame _ _).1]
    · simp only [h, if_false]
      exact (exitHold_frame _ _).1
  have hst3mv : movementOf st3 eid = some mv := by
    rw [hst3]
    by_cases h : opts.clearAttackIntent = true
    · simp only [h, if_true]
      rw [removeAttackTarget_movementOf, exitHold_movementOf]
      exact hmv0
    · simp only [h, if_false]
      exact hmv1
  obtain ⟨hcf1, hcf2, hcf3, hcf4, hcf5, hcf6⟩ := checkMatchedPending_frame st3 eid mv opts tgt
  have hcmv : movementOf (checkMatchedPending st3 eid mv opts tgt).1 eid = some mv := by
    unfold movementOf
    rw [hcf5]
    exact hst3mv
  refine ⟨?_, ?_, ?_, ?_⟩
  · rw [hred, (setMovement_frame _ _ _).2.2.2.2.1, hcf3, hst3sub]
  · rw [hred, (setMovement_frame _ _ _).2.2.2.1, hcf2, hst3next]
  · intro r
    rw [hred, (setMovement_frame _ _ _).1, hcf6, hst3pr]
  · rw [hred]
    exact setMovement_movementOf_self _ eid _ mv hcmv

/-- The C3 fixture: a fresh idle entity (no target, no pending request,
`timeSinceLastPathRequest` 0, last goal at the origin). -/
def c3Ent : Entity :=
  { transform := some { posX := 0, posZ := 0, scaleX := 1, scaleZ := 1 }
    movement := some MovementComponent.default
    attack := none, attackTarget := none, holdMode := none, unit := none, building := false }

/-- The C3 fixture state. -/
def c3St : ServiceState :=
  { pathfinder := some flatPf
    pendingRequests := fun _ => none
    entityToRequest := fun _ => none
    nextRequestId := 1
    world := fun i => if i = 1 then some c3Ent else none
    submitted := [], allocated := [] }

/-- The C3 move options (`allowDirectFallback` off, so the short move must
go through the request path). -/
def c3Opts : MoveOptions :=
  { groupMove := false, clearAttackIntent := false, allowDirectFallback := false }

/-- Counterexample to claim C3 as stated: entity 1 is inside the cooldown
window (`timeSinceLastPathRequest = 0 < 1`) and the new destination (1,0)
is within 2 world units of the last requested goal (0,0), yet `moveUnits`
submits a new path request and creates a new ledger entry, because the
suppression flag only takes effect when the entity already has a target or
a pending request. -/
theorem claim_C3_counterexample :
    suppressCond MovementComponent.default ⟨1, 0⟩ ∧
    MovementComponent.default.hasTarget = false ∧
    MovementComponent.default.pathPending = false ∧
    (moveUnits (fun q => q) c3St [1] [⟨1, 0⟩] c3Opts).submitted = [(1, ⟨0,0⟩, ⟨1,0⟩)] ∧
    ((moveUnits (fun q => q) c3St [1] [⟨1, 0⟩] c3Opts).pendingRequests 1).isSome = true := by
  refine ⟨?_, rfl, rfl, by decide, by decide⟩
  unfold suppressCond pathfinding_request_cooldown target_movement_threshold_sq
  refine ⟨by decide, by decide⟩

/-- The C3 witness entity: same cooldown situation but with an active
target, so the suppression applies. -/
def c3BusyMv : MovementComponent :=
  { MovementComponent.default with hasTarget := true, target_x := 5, target_y := 5 }

/-- The C3 witness entity record. -/
def c3BusyEnt : Entity :=
  { c3Ent with movement := some c3BusyMv }

/-- The C3 witness state. -/
def c3BusySt : ServiceState :=
  { c3St with world := fun i => if i = 1 then some c3BusyEnt else none }

/-- Witness for the amended claim C3 at the concrete fixture. -/
theorem claim_C3_witness :
    (suppressCond c3BusyMv ⟨1, 0⟩ ∧ c3BusyMv.hasTarget = true) ∧
    (moveUnits (fun q => q) c3BusySt [1] [⟨1, 0⟩] c3Opts).submitted = c3BusySt.submitted ∧
    movementOf (moveUnits (fun q => q) c3BusySt [1] [⟨1, 0⟩] c3Opts) 1 =
      some { c3BusyMv with goalX := 1, goalY := 0 } := by
  have hsc : suppressCond c3BusyMv ⟨1, 0⟩ := by
    unfold suppressCond pathfinding_request_cooldown target_movement_threshold_sq
    exact ⟨by decide, by decide⟩
  have h := claim_C3 c3BusySt 1 ⟨1, 0⟩ c3Opts (fun q => q) c3BusyEnt
    { posX := 0, posZ := 0, scaleX := 1, scaleZ := 1 } c3BusyMv
    rfl rfl rfl rfl hsc (Or.inl rfl)
  exact ⟨⟨hsc, rfl⟩, h.1, h.2.2.2⟩

/-! ### Claim C4: direct-path threshold -/

/-- `ensureMovement` only rewrites the world. -/
theorem ensureMovement_frame (st : ServiceState) (i : Nat) :
    (ensureMovement st i).1.pendingRequests = st.pendingRequests ∧
    (ensureMovement st i).1.entityToRequest = st.entityToRequest ∧
    (ensureMovement st i).1.pathfinder = st.pathfinder ∧
    (ensureMovement st i).1.nextRequestId = st.nextRequestId ∧
    (ensureMovement st i).1.submitted = st.submitted ∧
    (ensureMovement st i).1.allocated = st.allocated := by
  unfold ensureMovement
  split
  · exact ⟨rfl, rfl, rfl, rfl, rfl, rfl⟩
  · split
    · exact ⟨rfl, rfl, rfl, rfl, rfl, rfl⟩
    · exact ⟨rfl, rfl, rfl, rfl, rfl, rfl⟩

/-- The member-erasure fold of `clearPendingRequest` never resurrects an
absent entity-to-request entry. -/
theorem clearFold_none (rid : Nat) (ms : List Nat) (s : ServiceState) (x : Nat)
    (h : s.entityToRequest x = none) :
    ((ms.foldl
      (fun s m =>
        if s.entityToRequest m = some rid then
          { s with entityToRequest := erUpdate s.entityToRequest m none }
        else s) s).entityToRequest x) = none := by
  induction ms generalizing s with
  | nil => exact h
  | cons m rest ih =>
    simp only [List.foldl_cons]
    split
    · refine ih _ ?_
      show erUpdate s.entityToRequest m none x = none
      unfold erUpdate
      by_cases hx : x = m
      · simp [hx]
      · simp [hx, h]
    · exact ih _ h

/-- The member-erasure fold of `clearPendingRequest` touches only the
entity-to-request map. -/
theorem clearFold_frame (rid : Nat) (ms : List Nat) (s : ServiceState) :
    ((ms.foldl
      (fun s m =>
        if s.entityToRequest m = some rid then
          { s with entityToRequest := erUpdate s.entityToRequest m none }
        else s) s).pendingRequests = s.pendingRequests ∧
     (ms.foldl
      (fun s m =>
        if s.entityToRequest m = some rid then
          { s with entityToRequest := erUpdate s.entityToRequest m none }
        else s) s).world = s.world ∧
     (ms.foldl
      (fun s m =>
        if s.entityToRequest m = some rid then
          { s with entityToRequest := erUpdate s.entityToRequest m none }
        else s) s).pathfinder = s.pathfinder ∧
     (ms.foldl
      (fun s m =>
        if s.entityToRequest m = some rid then
          { s with entityToRequest := erUpdate s.entityToRequest m none }
        else s) s).nextRequestId = s.nextRequestId ∧
     (ms.foldl
      (fun s m =>
        if s.entityToRequest m = some rid then
          { s with entityToRequest := erUpdate s.entityToRequest m none }
        else s) s).submitted = s.submitted ∧
     (ms.foldl
      (fun s m =>
        if s.entityToRequest m = some rid then
          { s with entityToRequest := erUpdate s.entityToRequest m none }
        else s) s).allocated = s.allocated) := by
  induction ms generalizing s with
  | nil => exact ⟨rfl, rfl, rfl, rfl, rfl, rfl⟩
  | cons m rest ih =>
    simp only [List.foldl_cons]
    split
    · exact ih _
    · exact ih _

/-- `clearPendingRequest` touches only the two ledger maps. -/
theorem clearPendingRequest_frame (st : ServiceState) (i : Nat) :
    (clearPendingRequest st i).world = st.world ∧
    (clearPendingRequest st i).pathfinder = st.pathfinder ∧
    (clearPendingRequest st i).nextRequestId = st.nextRequestId ∧
    (clearPendingRequest st i).submitted = st.submitted ∧
    (clearPendingRequest st i).allocated = st.allocated := by
  simp only [clearPendingRequest]
  split
  · exact ⟨rfl, rfl, rfl, rfl, rfl⟩
  · rename_i rid her
    split
    · exact ⟨rfl, rfl, rfl, rfl, rfl⟩
    · rename_i info hinfo
      obtain ⟨_, h2, h3, h4, h5, h6⟩ := clearFold_frame rid info.groupMembers _
      exact ⟨h2, h3, h4, h5, h6⟩

/-- After `clearPendingRequest`, the entity has no ledger entry. -/
theorem clearPendingRequest_er_self (st : ServiceState) (i : Nat) :
    (clearPendingRequest st i).entityToRequest i = none := by
  simp only [clearPendingRequest]
  split
  · assumption
  · rename_i rid her
    split
    · show erUpdate st.entityToRequest i none i = none
      simp [erUpdate]
    · refine clearFold_none rid _ _ i ?_
      show erUpdate st.entityToRequest i none i = none
      simp [erUpdate]

/-- `checkMatchedPending` is a no-op non-match when the entity has no
pending path. -/
theorem checkMatchedPending_not_pending (st : ServiceState) (eid : Nat)
    (mv : MovementComponent) (opts : MoveOptions) (tgt : Vec2)
    (h : mv.pathPending = false) :
    checkMatchedPending st eid mv opts tgt = (st, false) := by
  unfold checkMatchedPending
  simp [h]

/-- Claim C4, amended (the claim as stated is refuted by
`claim_C4_counterexample`).  For a single-unit move with a live pathfinder,
start/end cells within `DIRECT_PATH_THRESHOLD` Manhattan distance and
`allowDirectFallback` set, `moveUnits` never calls `submitPathRequest`; and
when the command additionally survives the deduplication gates — the entity
is not melee-locked, has no pending request, no current target and an empty
path — the immediate target is set to the destination, the path and pending
state are cleared и the entity's ledger entry is removed.  When an earlier
gate consumes the command (e.g. a matching in-flight request), the target
is not set, but still nothing is submitted. -/
theorem claim_C4 (st : ServiceState) (eid : Nat) (tgt : Vec2) (opts : MoveOptions)
    (fsqrt : ℚ → ℚ) (pf : Pathfinding) (e : Entity) (tr : TransformComponent)
    (hpf : st.pathfinder = some pf)
    (hfb : opts.allowDirectFallback = true)
    (hw : st.world eid = some e)
    (htr : e.transform = some tr)
    (hman : ((((worldToGridPf pf tgt.x tgt.z).x -
        (worldToGridPf pf tr.posX tr.posZ).x).natAbs : Int) +
      ((((worldToGridPf pf tgt.x tgt.z).y -
        (worldToGridPf pf tr.posX tr.posZ).y).natAbs : Int)) ≤ DIRECT_PATH_THRESHOLD)) :
    (moveUnits fsqrt st [eid] [tgt] opts).submitted = st.submitted ∧
    (∀ mv, e.movement = some mv →
      (e.attack.map (·.inMeleeLock)).getD false = false →
      mv.pathPending = false → mv.hasTarget = false → mv.path = [] →
      (moveUnits fsqrt st [eid] [tgt] opts).entityToRequest eid = none ∧
      ∃ mv', movementOf (moveUnits fsqrt st [eid] [tgt] opts) eid = some mv' ∧
        mv'.target_x = tgt.x ∧ mv'.target_y = tgt.z ∧ mv'.hasTarget = true ∧
        mv'.path = [] ∧ mv'.pathPending = false ∧ mv'.pendingRequestId = 0) := by
  rw [moveUnits_single]
  unfold moveOneUnit
  rw [hw]
  by_cases hml : (e.attack.map (·.inMeleeLock)).getD false = true
  · simp only [hml, if_true]
    refine ⟨(exitHold_frame st eid).2.2.2.2.1, ?_⟩
    intro mv _ hlock _ _ _
    exact absurd hlock (by decide)
  · simp only [Bool.not_eq_true] at hml
    simp only [hml, Bool.false_eq_true, if_false, htr]
    set st1 := exitHold st eid with hst1
    set em := ensureMovement st1 eid with hem
    set st3 := (if opts.clearAttackIntent = true then removeAttackTarget em.1 eid else em.1)
      with hst3
    have h1 := exitHold_frame st eid
    rw [← hst1] at h1
    have h2 := ensureMovement_frame st1 eid
    rw [← hem] at h2
    have hst3frame : st3.submitted = st.submitted ∧ st3.pathfinder = st.pathfinder := by
      rw [hst3]
      by_cases h : opts.clearAttackIntent = true
      · have h3 := removeAttackTarget_frame em.1 eid
        rw [if_pos h]
        constructor
        · rw [h3.2.2.2.2.1, h2.2.2.2.2.1, h1.2.2.2.2.1]
        · rw [h3.2.2.1, h2.2.2.1, h1.2.2.1]
      · rw [if_neg h]
        constructor
        · rw [h2.2.2.2.2.1, h1.2.2.2.2.1]
        · rw [h2.2.2.1, h1.2.2.1]
    set mv1 := { em.2 with goalX := tgt.x, goalY := tgt.z } with hmv1
    set cm := checkMatchedPending st3 eid em.2 opts tgt with hcm
    have hcmf := checkMatchedPending_frame st3 eid em.2 opts tgt
    rw [← hcm] at hcmf
    obtain ⟨hcf1, hcf2, hcf3, hcf4, hcf5, hcf6⟩ := hcmf
    set st5 := setMovement cm.1 eid mv1 with hst5
    have hsmf := setMovement_frame cm.1 eid mv1
    rw [← hst5] at hsmf
    obtain ⟨hsf1, hsf2, hsf3, hsf4, hsf5, hsf6⟩ := hsmf
    have hst5sub : st5.submitted = st.submitted := by
      rw [hsf5, hcf3, hst3frame.1]
    have hst5pf : st5.pathfinder = st.pathfinder := by
      rw [hsf3, hcf1, hst3frame.2]
    have hsnapsub : ∀ m : MovementComponent,
        (clearPendingRequest (setMovement st5 eid m) eid).submitted = st.submitted := by
      intro m
      rw [(clearPendingRequest_frame _ _).2.2.2.1, (setMovement_frame st5 eid m).2.2.2.2.1,
        hst5sub]
    have hsnaper : ∀ m : MovementComponent,
        (clearPendingRequest (setMovement st5 eid m) eid).entityToRequest eid = none := by
      intro m
      exact clearPendingRequest_er_self _ eid
    have hresolve : ∀ m : MovementComponent,
        (resolvePath st5 eid tr m opts tgt).submitted = st.submitted ∧
        (resolvePath st5 eid tr m opts tgt).entityToRequest eid = none ∧
        (resolvePath st5 eid tr m opts tgt) =
          clearPendingRequest (setMovement st5 eid
            (if worldToGridPf pf tr.posX tr.posZ = worldToGridPf pf tgt.x tgt.z then
              snapMv m tgt
             else snapMvCooldown m tgt)) eid := by
      intro m
      unfold resolvePath
      rw [hst5pf, hpf]
      by_cases hse : worldToGridPf pf tr.posX tr.posZ = worldToGridPf pf tgt.x tgt.z
      · simp only [hse, if_true]
        refine ⟨hsnapsub _, hsnaper _, ?_⟩
        trivial
      · simp only [hse, if_false]
        rw [if_pos ⟨hman, hfb⟩]
        refine ⟨hsnapsub _, hsnaper _, ?_⟩
        trivial
    by_cases hcmb : cm.2 = true
    · -- matched in-flight request: no submit, command consumed
      simp only [hcmb, if_true]
      refine ⟨hst5sub, ?_⟩
      intro mv hmv hlock hpend _ _
      -- with no pending path the matched branch is unreachable
      have hemv : em.2 = mv := by
        have hmo : movementOf st1 eid = some mv := by
          rw [hst1, exitHold_movementOf]
          unfold movementOf
          rw [hw]
          simp [hmv]
        rw [hem, ensureMovement_of_present st1 eid mv hmo]
      rw [hcm, hemv, checkMatchedPending_not_pending st3 eid mv opts tgt hpend] at hcmb
      cases hcmb
    · simp only [Bool.not_eq_true] at hcmb
      simp only [hcmb, Bool.false_eq_true, if_false]
      by_cases hsup : suppressCond mv1 tgt ∧ (mv1.hasTarget = true ∨ mv1.pathPending = true)
      · rw [if_pos hsup]
        refine ⟨hst5sub, ?_⟩
        intro mv hmv hlock hpend hht _
        have hemv : em.2 = mv := by
          have hmo : movementOf st1 eid = some mv := by
            rw [hst1, exitHold_movementOf]
            unfold movementOf
            rw [hw]
            simp [hmv]
          rw [hem, ensureMovement_of_present st1 eid mv hmo]
        rcases hsup.2 with h | h
        · rw [hmv1, hemv] at h
          simp only at h
          rw [hht] at h
          cases h
        · rw [hmv1, hemv] at h
          simp only at h
          rw [hpend] at h
          cases h
      · rw [if_neg hsup]
        by_cases hsat : alreadySatisfied mv1 tgt
        · rw [if_pos hsat]
          refine ⟨hst5sub, ?_⟩
          intro mv hmv hlock hpend hht hpath
          have hemv : em.2 = mv := by
            have hmo : movementOf st1 eid = some mv := by
              rw [hst1, exitHold_movementOf]
              unfold movementOf
              rw [hw]
              simp [hmv]
            rw [hem, ensureMovement_of_present st1 eid mv hmo]
          exfalso
          rcases hsat with ⟨_, hd⟩
          rcases hd with ⟨hh1, _, _⟩ | ⟨lw, hlw, _⟩
          · rw [hmv1, hemv] at hh1
            simp only at hh1
            rw [hht] at hh1
            cases hh1
          · rw [hmv1, hemv] at hlw
            simp only at hlw
            rw [hpath] at hlw
            cases hlw
        · rw [if_neg hsat]
          obtain ⟨hr1, hr2, hr3⟩ := hresolve mv1
          refine ⟨hr1, ?_⟩
          intro mv hmv hlock hpend hht hpath
          refine ⟨hr2, ?_⟩
          rw [hr3]
          have hemv : em.2 = mv := by
            have hmo : movementOf st1 eid = some mv := by
              rw [hst1, exitHold_movementOf]
              unfold movementOf
              rw [hw]
              simp [hmv]
            rw [hem, ensureMovement_of_present st1 eid mv hmo]
          have hmvst5 : movementOf st5 eid = some mv1 := by
            have hmo0 : movementOf st1 eid = some mv := by
              rw [hst1, exitHold_movementOf]
              unfold movementOf
              rw [hw]
              simp [hmv]
            have hem1 : em.1 = st1 := by
              rw [hem, ensureMovement_of_present st1 eid mv hmo0]
            have hmo : movementOf cm.1 eid = some em.2 := by
              unfold movementOf
              rw [hcf5, hst3]
              by_cases h : opts.clearAttackIntent = true
              · rw [if_pos h]
                show movementOf (removeAttackTarget em.1 eid) eid = _
                rw [removeAttackTarget_movementOf, hem1, hemv]
                exact hmo0
              · rw [if_neg h]
                show movementOf em.1 eid = _
                rw [hem1, hemv]
                exact hmo0
            rw [hst5]
            exact setMovement_movementOf_self cm.1 eid mv1 em.2 hmo
          have hclw : ∀ m : MovementComponent,
              movementOf (clearPendingRequest (setMovement st5 eid m) eid) eid = some m := by
            intro m
            unfold movementOf
            rw [(clearPendingRequest_frame _ eid).1]
            exact setMovement_movementOf_self st5 eid m mv1 hmvst5
          by_cases hse : worldToGridPf pf tr.posX tr.posZ = worldToGridPf pf tgt.x tgt.z
          · rw [if_pos hse]
            exact ⟨snapMv mv1 tgt, hclw _, rfl, rfl, rfl, rfl, rfl, rfl⟩
          · rw [if_neg hse]
            exact ⟨snapMvCooldown mv1 tgt, hclw _, rfl, rfl, rfl, rfl, rfl, rfl⟩

/-- The C4 fixture: entity 1 already pending request 1 whose in-flight
target equals the new destination. -/
def c4Mv : MovementComponent :=
  { MovementComponent.default with pathPending := true, pendingRequestId := 1 }

/-- The C4 fixture entity. -/
def c4Ent : Entity :=
  { transform := some { posX := 0, posZ := 0, scaleX := 1, scaleZ := 1 }
    movement := some c4Mv
    attack := none, attackTarget := none, holdMode := none, unit := none, building := false }

/-- The C4 fixture ledger entry: request 1, target (1,0). -/
def c4Info : PendingPathRequest :=
  { entity_id := 1, target := ⟨1, 0⟩
    options := { groupMove := false, clearAttackIntent := false, allowDirectFallback := true }
    groupMembers := [], groupTargets := [] }

/-- The C4 move options (`allowDirectFallback` on). -/
def c4Opts : MoveOptions :=
  { groupMove := false, clearAttackIntent := false, allowDirectFallback := true }

/-- The C4 fixture state. -/
def c4St : ServiceState :=
  { pathfinder := some flatPf
    pendingRequests := fun r => if r = 1 then some c4Info else none
    entityToRequest := fun e => if e = 1 then some 1 else none
    nextRequestId := 2
    world := fun i => if i = 1 then some c4Ent else none
    submitted := [], allocated := [] }

/-- Counterexample to claim C4 as stated: the pathfinder is live, the
start/end cells are one Manhattan step apart (within the threshold) and
`allowDirectFallback` is set, yet `moveUnits` leaves the immediate target
unset, the pending state uncleared and the ledger entry in place — the
command was consumed by the pending-request-reuse gate.  (No request is
submitted, so the first half of the claim does hold.) -/
theorem claim_C4_counterexample :
    c4Opts.allowDirectFallback = true ∧
    ((((worldToGridPf flatPf (1:ℚ) 0).x - (worldToGridPf flatPf 0 0).x).natAbs : Int) +
      (((worldToGridPf flatPf (1:ℚ) 0).y - (worldToGridPf flatPf 0 0).y).natAbs : Int) ≤
        DIRECT_PATH_THRESHOLD) ∧
    (movementOf (moveUnits (fun q => q) c4St [1] [⟨1, 0⟩] c4Opts) 1).map (·.hasTarget) =
      some false ∧
    (movementOf (moveUnits (fun q => q) c4St [1] [⟨1, 0⟩] c4Opts) 1).map (·.pathPending) =
      some true ∧
    (moveUnits (fun q => q) c4St [1] [⟨1, 0⟩] c4Opts).entityToRequest 1 = some 1 := by
  exact ⟨rfl, by decide, by decide, by decide, by decide⟩

/-- The C4 witness state: the C3 fresh idle entity with fallback-enabled
options. -/
theorem claim_C4_witness :
    (moveUnits (fun q => q) c3St [1] [⟨1, 0⟩] c4Opts).submitted = c3St.submitted ∧
    (moveUnits (fun q => q) c3St [1] [⟨1, 0⟩] c4Opts).entityToRequest 1 = none ∧
    ∃ mv', movementOf (moveUnits (fun q => q) c3St [1] [⟨1, 0⟩] c4Opts) 1 = some mv' ∧
      mv'.target_x = 1 ∧ mv'.target_y = 0 ∧ mv'.hasTarget = true ∧
      mv'.path = [] ∧ mv'.pathPending = false ∧ mv'.pendingRequestId = 0 := by
  have h := claim_C4 c3St 1 ⟨1, 0⟩ c4Opts (fun q => q) flatPf c3Ent
    { posX := 0, posZ := 0, scaleX := 1, scaleZ := 1 }
    rfl rfl rfl rfl (by decide)
  have h2 := h.2 MovementComponent.default rfl rfl rfl rfl rfl
  exact ⟨h.1, h2.1, h2.2⟩

/-! ### Claim C8: attack stand-off margin -/

/-- `exitHold` leaves other entities untouched. -/
theorem exitHold_world_other (st : ServiceState) (i x : Nat) (hx : x ≠ i) :
    (exitHold st i).world x = st.world x := by
  unfold exitHold
  split
  · rfl
  · split
    · split
      · show (setEntity st i _).world x = _
        unfold setEntity wUpdate
        simp [hx]
      · rfl
    · rfl

/-- `setAttackTarget` leaves other entities untouched. -/
theorem setAttackTarget_world_other (st : ServiceState) (i : Nat) (t : Nat) (c : Bool)
    (x : Nat) (hx : x ≠ i) :
    (setAttackTarget st i t c).world x = st.world x := by
  unfold setAttackTarget
  split
  · rfl
  · show (setEntity st i _).world x = _
    unfold setEntity wUpdate
    simp [hx]

/-- `exitHold` changes at most the hold-mode component of its entity. -/
theorem exitHold_world_self (st : ServiceState) (i : Nat) (e : Entity)
    (h : st.world i = some e) :
    ∃ e', (exitHold st i).world i = some e' ∧ e'.transform = e.transform ∧
      e'.movement = e.movement ∧ e'.attack = e.attack ∧
      e'.attackTarget = e.attackTarget ∧ e'.unit = e.unit ∧ e'.building = e.building := by
  unfold exitHold
  rw [h]
  cases hhm : e.holdMode with
  | none =>
    simp only [hhm]
    exact ⟨e, h, rfl, rfl, rfl, rfl, rfl, rfl⟩
  | some hmv =>
    simp only [hhm]
    by_cases ha : hmv.active = true
    · rw [if_pos ha]
      refine ⟨{ e with holdMode := some { hmv with active := false, exitCooldown := hmv.standUpDuration } }, ?_, rfl, rfl, rfl, rfl, rfl, rfl⟩
      show wUpdate st.world i _ i = _
      simp [wUpdate]
    · rw [if_neg ha]
      exact ⟨e, h, rfl, rfl, rfl, rfl, rfl, rfl⟩

/-- `setAttackTarget` changes exactly the attack-target component of its
entity. -/
theorem setAttackTarget_world_self (st : ServiceState) (i : Nat) (t : Nat) (c : Bool)
    (e : Entity) (h : st.world i = some e) :
    (setAttackTarget st i t c).world i =
      some { e with attackTarget := some { targetId := t, shouldChase := c } } := by
  unfold setAttackTarget
  rw [h]
  show wUpdate st.world i _ i = _
  simp [wUpdate]

/-- `desiredStandOffDistance` depends only on the attacker's attack
component. -/
theorem desiredStandOffDistance_congr (a b targetEnt : Entity)
    (t_trans : TransformComponent) (h : a.attack = b.attack) :
    desiredStandOffDistance a targetEnt t_trans =
      desiredStandOffDistance b targetEnt t_trans := by
  unfold desiredStandOffDistance effectiveRange isRangedUnit
  rw [h]

/-- `ensureMovement` preserves entity existence. -/
theorem ensureMovement_isSome (st : ServiceState) (i x : Nat) :
    ((ensureMovement st i).1.world x).isSome = (st.world x).isSome := by
  unfold ensureMovement
  cases hw : st.world i with
  | none => rfl
  | some e =>
    cases hm : e.movement with
    | some mv => simp [hm]
    | none =>
      simp only [hm]
      show ((setEntity st i _).world x).isSome = _
      unfold setEntity wUpdate
      by_cases hx : x = i
      · subst hx; simp [hw]
      · simp [hx]

/-- After `ensureMovement`, the entity (when it exists) holds exactly the
returned movement component. -/
theorem ensureMovement_self (st : ServiceState) (i : Nat) (e : Entity)
    (h : st.world i = some e) :
    movementOf (ensureMovement st i).1 i = some (ensureMovement st i).2 := by
  unfold ensureMovement
  rw [h]
  cases hm : e.movement with
  | some mv =>
    simp only [hm]
    unfold movementOf
    rw [h]
    simp [hm]
  | none =>
    simp only [hm]
    unfold movementOf setEntity wUpdate
    simp

/-- `checkExistingRequest` touches only the two ledger maps. -/
theorem checkExistingRequest_frame (st : ServiceState) (eid : Nat)
    (opts : MoveOptions) (tgt : Vec2) :
    (checkExistingRequest st eid opts tgt).1.world = st.world ∧
    (checkExistingRequest st eid opts tgt).1.pathfinder = st.pathfinder ∧
    (checkExistingRequest st eid opts tgt).1.nextRequestId = st.nextRequestId ∧
    (checkExistingRequest st eid opts tgt).1.submitted = st.submitted ∧
    (checkExistingRequest st eid opts tgt).1.allocated = st.allocated := by
  unfold checkExistingRequest
  split
  · exact ⟨rfl, rfl, rfl, rfl, rfl⟩
  · split
    · split
      · exact ⟨rfl, rfl, rfl, rfl, rfl⟩
      · exact ⟨rfl, rfl, rfl, rfl, rfl⟩
    · exact ⟨rfl, rfl, rfl, rfl, rfl⟩

/-- `issueAsyncRequest` preserves entity existence. -/
theorem issueAsyncRequest_isSome (st : ServiceState) (eid : Nat)
    (mv : MovementComponent) (opts : MoveOptions) (tgt : Vec2) (s e : Point) (x : Nat) :
    ((issueAsyncRequest st eid mv opts tgt s e).world x).isSome = (st.world x).isSome := by
  simp only [issueAsyncRequest]
  obtain ⟨hcw, _, _, _, _⟩ := checkExistingRequest_frame st eid opts tgt
  split
  · rw [hcw]
  · rw [setMovement_isSome]
    show ((checkExistingRequest st eid opts tgt).1.world x).isSome = _
    rw [hcw]

/-- `resolvePath` preserves entity existence. -/
theorem resolvePath_isSome (st : ServiceState) (eid : Nat) (tr : TransformComponent)
    (mv : MovementComponent) (opts : MoveOptions) (tgt : Vec2) (x : Nat) :
    ((resolvePath st eid tr mv opts tgt).world x).isSome = (st.world x).isSome := by
  simp only [resolvePath]
  split
  · split
    · rw [(clearPendingRequest_frame _ _).1, setMovement_isSome]
    · split
      · rw [(clearPendingRequest_frame _ _).1, setMovement_isSome]
      · exact issueAsyncRequest_isSome _ _ _ _ _ _ _ _
  · rw [(clearPendingRequest_frame _ _).1, setMovement_isSome]

/-- `moveOneUnit` preserves entity existence. -/
theorem moveOneUnit_isSome (st : ServiceState) (eid : Nat) (tgt : Vec2)
    (opts : MoveOptions) (x : Nat) :
    ((moveOneUnit st eid tgt opts).world x).isSome = (st.world x).isSome := by
  simp only [moveOneUnit]
  split
  · rfl
  · split
    · exact exitHold_isSome st eid x
    · split
      · exact exitHold_isSome st eid x
      · repeat' split
        all_goals first
          | rw [setMovement_isSome, (checkMatchedPending_frame _ _ _ _ _).2.2.2.2.1,
              removeAttackTarget_isSome, ensureMovement_isSome, exitHold_isSome]
          | rw [setMovement_isSome, (checkMatchedPending_frame _ _ _ _ _).2.2.2.2.1,
              ensureMovement_isSome, exitHold_isSome]
          | rw [resolvePath_isSome, setMovement_isSome,
              (checkMatchedPending_frame _ _ _ _ _).2.2.2.2.1,
              removeAttackTarget_isSome, ensureMovement_isSome, exitHold_isSome]
          | rw [resolvePath_isSome, setMovement_isSome,
              (checkMatchedPending_frame _ _ _ _ _).2.2.2.2.1,
              ensureMovement_isSome, exitHold_isSome]

/-- Claim C8, amended (the claim as stated is refuted by
`claim_C8_counterexample`).  For an attack command with `shouldChase` where
the attacker is already within the 0.15 margin of the desired stand-off
distance, `attack_target` still reissues movement: the stand-off
destination degenerates to the target's own position, and the attacker's
movement state receives that position as its immediate target and goal with
`hasTarget` true and an empty path. -/
theorem claim_C8 (st : ServiceState) (fsqrt : ℚ → ℚ) (eid targetId : Nat)
    (e targetEnt : Entity) (t_tr a_tr : TransformComponent)
    (hne : targetId ≠ 0)
    (hneq : eid ≠ targetId)
    (hw : st.world eid = some e)
    (hwt : st.world targetId = some targetEnt)
    (htt : targetEnt.transform = some t_tr)
    (hat : e.transform = some a_tr)
    (hmargin : ¬(fsqrt (distSq ⟨t_tr.posX, t_tr.posZ⟩ ⟨a_tr.posX, a_tr.posZ⟩) >
      desiredStandOffDistance e targetEnt t_tr + 3/20)) :
    ∃ mv', movementOf (attack_target fsqrt st [eid] targetId true) eid = some mv' ∧
      mv'.target_x = t_tr.posX ∧ mv'.target_y = t_tr.posZ ∧
      mv'.goalX = t_tr.posX ∧ mv'.goalY = t_tr.posZ ∧
      mv'.hasTarget = true ∧ mv'.path = [] := by
  have hone : attack_target fsqrt st [eid] targetId true =
      attackOneUnit fsqrt st eid targetId true := by
    unfold attack_target
    rw [if_neg hne]
    rfl
  rw [hone]
  obtain ⟨e1, he1, he1t, he1m, he1a, he1at, he1u, he1b⟩ := exitHold_world_self st eid e hw
  have hst2self : (setAttackTarget (exitHold st eid) eid targetId true).world eid =
      some { e1 with attackTarget := some { targetId := targetId, shouldChase := true } } :=
    setAttackTarget_world_self _ eid targetId true e1 he1
  have hst2t : (setAttackTarget (exitHold st eid) eid targetId true).world targetId =
      some targetEnt := by
    rw [setAttackTarget_world_other _ _ _ _ _ (Ne.symm hneq),
      exitHold_world_other _ _ _ (Ne.symm hneq)]
    exact hwt
  have he2t : ({ e1 with attackTarget := some { targetId := targetId, shouldChase := true } } : Entity).transform = some a_tr := by
    show e1.transform = some a_tr
    rw [he1t]
    exact hat
  have hdpGen : ∀ e2 : Entity, e2.attack = e.attack →
      standOffPosition fsqrt e2 targetEnt t_tr a_tr = ⟨t_tr.posX, t_tr.posZ⟩ := by
    intro e2 h2
    apply standOffPosition_within
    rw [desiredStandOffDistance_congr e2 e targetEnt t_tr h2]
    exact hmargin
  have hat2 : e1.transform = some a_tr := he1t.trans hat
  simp only [attackOneUnit, hw, Bool.true_eq_false, if_false, hst2t, hst2self, htt, hat2]
  rw [hdpGen { transform := some a_tr, movement := e1.movement, attack := e1.attack, attackTarget := some { targetId := targetId, shouldChase := true }, holdMode := e1.holdMode, unit := e1.unit, building := e1.building } he1a]
  set st3 := moveUnits fsqrt (setAttackTarget (exitHold st eid) eid targetId true)
    [eid] [(⟨t_tr.posX, t_tr.posZ⟩ : Vec2)]
    { groupMove := false, clearAttackIntent := false, allowDirectFallback := true } with hst3
  have hp3 : (st3.world eid).isSome = true := by
    rw [hst3, moveUnits_single, moveOneUnit_isSome, hst2self]
    rfl
  obtain ⟨e3, he3⟩ := Option.isSome_iff_exists.mp hp3
  have hens := ensureMovement_self st3 eid e3 he3
  refine ⟨{ (ensureMovement st3 eid).2 with target_x := t_tr.posX, target_y := t_tr.posZ, goalX := t_tr.posX, goalY := t_tr.posZ, hasTarget := true, path := [] }, ?_, rfl, rfl, rfl, rfl, rfl, rfl⟩
  exact setMovement_movementOf_self _ eid _ _ hens

/-- The C8 fixture attacker: melee unit with range 2 at the origin, idle. -/
def c8Attacker : Entity :=
  { transform := some { posX := 0, posZ := 0, scaleX := 1, scaleZ := 1 }
    movement := some MovementComponent.default
    attack := some { range := 2, meleeRange := 1, canRanged := false, inMeleeLock := false }
    attackTarget := none, holdMode := none, unit := none, building := false }

/-- The C8 fixture target: a mobile unit one world unit away. -/
def c8Target : Entity :=
  { transform := some { posX := 1, posZ := 0, scaleX := 1, scaleZ := 1 }
    movement := none, attack := none, attackTarget := none, holdMode := none
    unit := none, building := false }

/-- The C8 fixture state. -/
def c8St : ServiceState :=
  { pathfinder := some flatPf
    pendingRequests := fun _ => none
    entityToRequest := fun _ => none
    nextRequestId := 1
    world := fun i => if i = 1 then some c8Attacker else if i = 9 then some c8Target else none
    submitted := [], allocated := [] }

/-- Counterexample to claim C8 as stated: attacker 1 is at distance 1 from
its target, within the 0.15 margin of the desired stand-off distance 1.8
(1 is not greater than 1.95), yet `attack_target` still gives its movement
state a new target — `hasTarget` flips from false to true with the target's
own position as the immediate target. -/
theorem claim_C8_counterexample :
    ¬((fun q => q) (distSq ⟨1, 0⟩ ⟨0, 0⟩) >
      desiredStandOffDistance c8Attacker c8Target
        { posX := 1, posZ := 0, scaleX := 1, scaleZ := 1 } + 3/20) ∧
    (movementOf c8St 1).map (·.hasTarget) = some false ∧
    (movementOf (attack_target (fun q => q) c8St [1] 9 true) 1).map (·.hasTarget) = some true ∧
    (movementOf (attack_target (fun q => q) c8St [1] 9 true) 1).map (·.target_x) = some 1 ∧
    (movementOf (attack_target (fun q => q) c8St [1] 9 true) 1).map (·.target_y) = some 0 := by
  refine ⟨?_, rfl, by decide, by decide, by decide⟩
  unfold desiredStandOffDistance effectiveRange isRangedUnit distSq
  decide

/-- Witness for the amended claim C8 at the concrete fixture. -/
theorem claim_C8_witness :
    ∃ mv', movementOf (attack_target (fun q => q) c8St [1] 9 true) 1 = some mv' ∧
      mv'.target_x = 1 ∧ mv'.target_y = 0 ∧ mv'.goalX = 1 ∧ mv'.goalY = 0 ∧
      mv'.hasTarget = true ∧ mv'.path = [] := by
  have h := claim_C8 c8St (fun q => q) 1 9 c8Attacker c8Target
    { posX := 1, posZ := 0, scaleX := 1, scaleZ := 1 }
    { posX := 0, posZ := 0, scaleX := 1, scaleZ := 1 }
    (by decide) (by decide) rfl rfl rfl rfl
    (by unfold desiredStandOffDistance effectiveRange isRangedUnit distSq
        decide)
  exact h

/-! ### Claim C5: group-move abort atomicity -/

/-- A state differs from `st0` only in hold-mode / attack-target component
data: the ledger, the logs, the pathfinder, every movement component and
entity existence are untouched. -/
def ledgerMovementFrame (st0 s : ServiceState) : Prop :=
  s.pendingRequests = st0.pendingRequests ∧
  s.entityToRequest = st0.entityToRequest ∧
  s.submitted = st0.submitted ∧
  s.nextRequestId = st0.nextRequestId ∧
  s.pathfinder = st0.pathfinder ∧
  s.allocated = st0.allocated ∧
  (∀ x, movementOf s x = movementOf st0 x) ∧
  (∀ x, (s.world x).isSome = (st0.world x).isSome)

/-- The frame relation is reflexive. -/
theorem ledgerMovementFrame_refl (st0 : ServiceState) : ledgerMovementFrame st0 st0 :=
  ⟨rfl, rfl, rfl, rfl, rfl, rfl, fun _ => rfl, fun _ => rfl⟩

/-- `exitHold` preserves the frame relation. -/
theorem ledgerMovementFrame_exitHold (st0 s : ServiceState) (i : Nat)
    (h : ledgerMovementFrame st0 s) : ledgerMovementFrame st0 (exitHold s i) := by
  obtain ⟨h1, h2, h3, h4, h5, h6, h7, h8⟩ := h
  obtain ⟨f1, f2, f3, f4, f5, f6⟩ := exitHold_frame s i
  exact ⟨f1.trans h1, f2.trans h2, f5.trans h3, f4.trans h4, f3.trans h5, f6.trans h6,
    fun x => (exitHold_movementOf s i x).trans (h7 x),
    fun x => (exitHold_isSome s i x).trans (h8 x)⟩

/-- `removeAttackTarget` preserves the frame relation. -/
theorem ledgerMovementFrame_removeAttackTarget (st0 s : ServiceState) (i : Nat)
    (h : ledgerMovementFrame st0 s) : ledgerMovementFrame st0 (removeAttackTarget s i) := by
  obtain ⟨h1, h2, h3, h4, h5, h6, h7, h8⟩ := h
  obtain ⟨f1, f2, f3, f4, f5, f6⟩ := removeAttackTarget_frame s i
  exact ⟨f1.trans h1, f2.trans h2, f5.trans h3, f4.trans h4, f3.trans h5, f6.trans h6,
    fun x => (removeAttackTarget_movementOf s i x).trans (h7 x),
    fun x => (removeAttackTarget_isSome s i x).trans (h8 x)⟩

/-- One member-collection step preserves the frame relation, provided the
unit, when it exists in `st0`, already has a movement component. -/
theorem ledgerMovementFrame_buildMemberStep (st0 : ServiceState) (opts : MoveOptions)
    (acc : ServiceState × List MemberInfo) (p : Nat × Vec2)
    (hp : ∀ ent, st0.world p.1 = some ent → ent.movement.isSome = true)
    (h : ledgerMovementFrame st0 acc.1) :
    ledgerMovementFrame st0 (buildMemberStep opts acc p).1 := by
  simp only [buildMemberStep]
  cases hw : acc.1.world p.1 with
  | none => simp only [hw]; exact h
  | some e =>
    simp only [hw]
    have hhold := ledgerMovementFrame_exitHold st0 acc.1 p.1 h
    cases htr : e.transform with
    | none => simp only [htr]; exact hhold
    | some tr =>
      simp only [htr]
      -- the unit has a movement component, so ensureMovement is a pure read
      have hsome0 : (st0.world p.1).isSome = true := by
        rw [← h.2.2.2.2.2.2.2 p.1, hw]
        rfl
      obtain ⟨ent, hent⟩ := Option.isSome_iff_exists.mp hsome0
      obtain ⟨m, hm⟩ := Option.isSome_iff_exists.mp (hp ent hent)
      have hm0 : movementOf st0 p.1 = some m := by
        unfold movementOf
        rw [hent]
        simp [hm]
      have hmeh : movementOf (exitHold acc.1 p.1) p.1 = some m := by
        rw [hhold.2.2.2.2.2.2.1 p.1]
        exact hm0
      rw [ensureMovement_of_present (exitHold acc.1 p.1) p.1 m hmeh]
      by_cases hci : opts.clearAttackIntent = true
      · simp only [hci, if_true]
        exact ledgerMovementFrame_removeAttackTarget st0 _ p.1 hhold
      · simp only [hci, Bool.false_eq_true, if_false]
        exact hhold

/-- The member-collection fold preserves the frame relation. -/
theorem ledgerMovementFrame_buildFold (st0 : ServiceState) (opts : MoveOptions)
    (L : List (Nat × Vec2)) (acc : ServiceState × List MemberInfo)
    (hL : ∀ p ∈ L, ∀ ent, st0.world p.1 = some ent → ent.movement.isSome = true)
    (h : ledgerMovementFrame st0 acc.1) :
    ledgerMovementFrame st0 (L.foldl (buildMemberStep opts) acc).1 := by
  induction L generalizing acc with
  | nil => exact h
  | cons p rest ih =>
    simp only [List.foldl_cons]
    exact ih _ (fun q hq => hL q (List.mem_cons_of_mem p hq))
      (ledgerMovementFrame_buildMemberStep st0 opts acc p
        (hL p (List.mem_cons_self p rest)) h)

/-- `buildMembers` preserves the frame relation when every commanded unit
already has a movement component. -/
theorem buildMembers_frame (st : ServiceState) (units : List Nat)
    (targets : List Vec2) (opts : MoveOptions)
    (hmv : ∀ u ∈ units, ∀ ent, st.world u = some ent → ent.movement.isSome = true) :
    ledgerMovementFrame st (buildMembers st units targets opts).1 := by
  unfold buildMembers
  refine ledgerMovementFrame_buildFold st opts (units.zip targets) (st, []) ?_
    (ledgerMovementFrame_refl st)
  intro p hp
  exact hmv p.1 (List.of_mem_zip hp).1

/-- Claim C5 (confirmed).  Group-move abort atomicity: for a group move
with at least two valid members, a live pathfinder, and some non-engaged
member whose destination cell is out of bounds or not walkable, the whole
command is aborted with zero movement-state mutation — no entity's movement
component changes, no ledger entry is created or removed, no request id is
allocated and no path request is submitted.  (Members must already carry a
movement component; a unit without one gets a default component attached
before validation, which is the only world change besides leaving hold
stance and clearing attack intent.) -/
theorem claim_C5 (st : ServiceState) (units : List Nat) (targets : List Vec2)
    (opts : MoveOptions) (fsqrt : ℚ → ℚ) (pf : Pathfinding)
    (hpf : st.pathfinder = some pf)
    (hmv : ∀ u ∈ units, ∀ ent, st.world u = some ent → ent.movement.isSome = true)
    (hlen : 2 ≤ (buildMembers st units targets opts).2.length)
    (habort : (((buildMembers st units targets opts).2.filter
      (fun m => !m.engaged)).any (fun m => invalidTarget pf m.target)) = true) :
    (moveGroup fsqrt st units targets opts).pendingRequests = st.pendingRequests ∧
    (moveGroup fsqrt st units targets opts).entityToRequest = st.entityToRequest ∧
    (moveGroup fsqrt st units targets opts).submitted = st.submitted ∧
    (moveGroup fsqrt st units targets opts).nextRequestId = st.nextRequestId ∧
    (∀ x, movementOf (moveGroup fsqrt st units targets opts) x = movementOf st x) := by
  have hframe := buildMembers_frame st units targets opts hmv
  have hrun : moveGroup fsqrt st units targets opts = (buildMembers st units targets opts).1 := by
    simp only [moveGroup]
    rcases hms : (buildMembers st units targets opts).2 with _ | ⟨m1, _ | ⟨m2, rest⟩⟩
    · rw [hms] at hlen
    · rw [hms] at hlen; simp at hlen
    · rw [hms] at habort
      have hmovne : ((m1 :: m2 :: rest).filter (fun m => !m.engaged)).isEmpty = false := by
        cases hf : ((m1 :: m2 :: rest).filter (fun m => !m.engaged)) with
        | nil => rw [hf] at habort; simp at habort
        | cons a l => simp [hf]
      simp only [hmovne, Bool.false_eq_true, if_false]
      rw [hframe.2.2.2.2.1, hpf]
      rw [if_pos habort]
  rw [hrun]
  exact ⟨hframe.1, hframe.2.1, hframe.2.2.1, hframe.2.2.2.1, hframe.2.2.2.2.2.2.1⟩

/-- The C5 fixture entities: two idle units with movement components. -/
def c5Ent1 : Entity :=
  { transform := some { posX := 0, posZ := 0, scaleX := 1, scaleZ := 1 }
    movement := some MovementComponent.default
    attack := none, attackTarget := none, holdMode := none, unit := none, building := false }

/-- The second C5 fixture entity. -/
def c5Ent2 : Entity :=
  { transform := some { posX := 1, posZ := 0, scaleX := 1, scaleZ := 1 }
    movement := some MovementComponent.default
    attack := none, attackTarget := none, holdMode := none, unit := none, building := false }

/-- The C5 fixture state. -/
def c5St : ServiceState :=
  { pathfinder := some flatPf
    pendingRequests := fun _ => none
    entityToRequest := fun _ => none
    nextRequestId := 1
    world := fun i => if i = 1 then some c5Ent1 else if i = 2 then some c5Ent2 else none
    submitted := [], allocated := [] }

/-- The C5 group-move options. -/
def c5Opts : MoveOptions :=
  { groupMove := true, clearAttackIntent := true, allowDirectFallback := true }

/-- Witness for claim C5: unit 2's destination (-5,0) maps to a grid cell
with a negative coordinate, so the whole two-member group command aborts
without touching any movement state, the ledger or the request queue. -/
theorem claim_C5_witness :
    (moveGroup (fun q => q) c5St [1, 2] [⟨5, 5⟩, ⟨-5, 0⟩] c5Opts).submitted = c5St.submitted ∧
    movementOf (moveGroup (fun q => q) c5St [1, 2] [⟨5, 5⟩, ⟨-5, 0⟩] c5Opts) 1 =
      movementOf c5St 1 ∧
    movementOf (moveGroup (fun q => q) c5St [1, 2] [⟨5, 5⟩, ⟨-5, 0⟩] c5Opts) 2 =
      movementOf c5St 2 := by
  have hmv : ∀ u ∈ [1, 2], ∀ ent, c5St.world u = some ent → ent.movement.isSome = true := by
    intro u hu ent hent
    have : u = 1 ∨ u = 2 := by simpa using hu
    rcases this with h | h
    · subst h
      have : ent = c5Ent1 := by
        have := hent.symm
        simpa [c5St] using this
      subst this
      rfl
    · subst h
      have : ent = c5Ent2 := by
        have := hent.symm
        simpa [c5St] using this
      subst this
      rfl
  have h := claim_C5 c5St [1, 2] [⟨5, 5⟩, ⟨-5, 0⟩] c5Opts (fun q => q) flatPf
    rfl hmv (by decide) (by decide)
  exact ⟨h.2.2.1, h.2.2.2.2 1, h.2.2.2.2 2⟩

/-! ### Fold combinators and the formation-pathing characterization -/

/-- A property preserved by every step of a left fold is preserved by the
whole fold. -/
theorem foldl_preserves {α σ : Type} (step : σ → α → σ) (P : σ → Prop) :
    ∀ (l : List α), (∀ s a, a ∈ l → P s → P (step s a)) → ∀ s, P s → P (l.foldl step s) := by
  intro l
  induction l with
  | nil => intro _ s h; exact h
  | cons a rest ih =>
    intro hpres s h
    exact ih (fun s b hb => hpres s b (List.mem_cons_of_mem a hb)) _
      (hpres s a (List.mem_cons_self a rest) h)

/-- A property established by the step of some listed element and preserved
by every step holds after the fold. -/
theorem foldl_establishes {α σ : Type} (step : σ → α → σ) (P : σ → Prop)
    (x : α) (hest : ∀ s, P (step s x)) :
    ∀ (l : List α), x ∈ l → (∀ s a, a ∈ l → P s → P (step s a)) → ∀ s, P (l.foldl step s) := by
  intro l
  induction l with
  | nil => intro hx _ _; exact absurd hx (List.not_mem_nil x)
  | cons a rest ih =>
    intro hx hpres s
    rcases List.mem_cons.mp hx with h | h
    · subst h
      exact foldl_preserves step P rest
        (fun s b hb => hpres s b (List.mem_cons_of_mem x hb)) _ (hest s)
    · exact ih h (fun s b hb => hpres s b (List.mem_cons_of_mem a hb)) _

/-- `modifyMovement` touches only the world. -/
theorem modifyMovement_frame (st : ServiceState) (i : Nat)
    (f : MovementComponent → MovementComponent) :
    (modifyMovement st i f).pendingRequests = st.pendingRequests ∧
    (modifyMovement st i f).entityToRequest = st.entityToRequest ∧
    (modifyMovement st i f).pathfinder = st.pathfinder ∧
    (modifyMovement st i f).nextRequestId = st.nextRequestId ∧
    (modifyMovement st i f).submitted = st.submitted ∧
    (modifyMovement st i f).allocated = st.allocated := by
  unfold modifyMovement
  split
  · exact ⟨rfl, rfl, rfl, rfl, rfl, rfl⟩
  · split
    · exact ⟨rfl, rfl, rfl, rfl, rfl, rfl⟩
    · exact ⟨rfl, rfl, rfl, rfl, rfl, rfl⟩

/-- `modifyMovement` leaves every other entity alone. -/
theorem modifyMovement_world_other (st : ServiceState) (i x : Nat) (hx : x ≠ i)
    (f : MovementComponent → MovementComponent) :
    (modifyMovement st i f).world x = st.world x := by
  unfold modifyMovement
  split
  · rfl
  · split
    · rfl
    · show wUpdate st.world i _ x = st.world x
      unfold wUpdate
      simp [hx]

/-- After `modifyMovement`, any movement component found at the updated
entity satisfies every property the update function guarantees. -/
theorem modifyMovement_post (st : ServiceState) (i : Nat)
    (f : MovementComponent → MovementComponent) (Q : MovementComponent → Prop)
    (hf : ∀ mv, Q (f mv)) :
    ∀ ent, (modifyMovement st i f).world i = some ent →
      ∀ mv, ent.movement = some mv → Q mv := by
  intro ent hent mv hmv
  unfold modifyMovement at hent
  cases hw : st.world i with
  | none =>
    simp only [hw] at hent
    exact absurd hent (by simp)
  | some e =>
    simp only [hw] at hent
    cases hm : e.movement with
    | none =>
      simp only [hm, hw] at hent
      injection hent with h
      subst h
      rw [hm] at hmv
      exact absurd hmv (by simp)
    | some mv0 =>
      simp only [hm, setEntity, wUpdate] at hent
      simp only [if_true] at hent
      injection hent with h
      subst h
      simp only at hmv
      injection hmv with h2
      exact h2 ▸ hf mv0

/-- The per-member regroup reset touches neither the pathfinder, the
counter, the submission log nor the allocation log. -/
theorem resetRegroupMember_frame (s : ServiceState) (m : MemberInfo) :
    (resetRegroupMember s m).pathfinder = s.pathfinder ∧
    (resetRegroupMember s m).nextRequestId = s.nextRequestId ∧
    (resetRegroupMember s m).submitted = s.submitted ∧
    (resetRegroupMember s m).allocated = s.allocated := by
  simp only [resetRegroupMember]
  obtain ⟨_, _, a3, a4, a5, a6⟩ := modifyMovement_frame s m.id
    (fun mv => { mv with goalX := m.target.x, goalY := m.target.z })
  obtain ⟨b1, b2, b3, b4, b5⟩ := clearPendingRequest_frame
    (modifyMovement s m.id (fun mv => { mv with goalX := m.target.x, goalY := m.target.z })) m.id
  obtain ⟨_, _, c3, c4, c5, c6⟩ := modifyMovement_frame
    (clearPendingRequest
      (modifyMovement s m.id (fun mv => { mv with goalX := m.target.x, goalY := m.target.z }))
      m.id) m.id
    (fun mv => { mv with target_x := m.posX, target_y := m.posZ, hasTarget := false
                         vx := 0, vz := 0, path := [], pathPending := false
                         pendingRequestId := 0 })
  exact ⟨c3.trans (b2.trans a3), c4.trans (b3.trans a4),
         c5.trans (b4.trans a5), c6.trans (b5.trans a6)⟩

/-- The pending-marking step touches only the world. -/
theorem pendingMarkStep_frame (rid : Nat) (s : ServiceState) (m : MemberInfo) :
    (pendingMarkStep rid s m).pendingRequests = s.pendingRequests ∧
    (pendingMarkStep rid s m).entityToRequest = s.entityToRequest ∧
    (pendingMarkStep rid s m).nextRequestId = s.nextRequestId ∧
    (pendingMarkStep rid s m).submitted = s.submitted ∧
    (pendingMarkStep rid s m).allocated = s.allocated := by
  simp only [pendingMarkStep]
  obtain ⟨f1, f2, _, f4, f5, f6⟩ := modifyMovement_frame s m.id
    (fun mv => { mv with pathPending := true, pendingRequestId := rid
                         timeSinceLastPathRequest := 0
                         lastGoalX := m.target.x, lastGoalY := m.target.z })
  exact ⟨f1, f2, f4, f5, f6⟩

/-- The pending-marking step leaves other entities alone. -/
theorem pendingMarkStep_world_other (rid : Nat) (s : ServiceState) (m : MemberInfo)
    (x : Nat) (hx : x ≠ m.id) :
    (pendingMarkStep rid s m).world x = s.world x := by
  simp only [pendingMarkStep]
  exact modifyMovement_world_other s m.id x hx _

/-- After the pending-marking step, the member's movement component (when
present) is pending on the shared request. -/
theorem pendingMarkStep_post (rid : Nat) (s : ServiceState) (m : MemberInfo) :
    ∀ ent, (pendingMarkStep rid s m).world m.id = some ent →
      ∀ mv, ent.movement = some mv →
        mv.pathPending = true ∧ mv.pendingRequestId = rid := by
  simp only [pendingMarkStep]
  exact modifyMovement_post s m.id _
    (fun mv => mv.pathPending = true ∧ mv.pendingRequestId = rid)
    (fun mv => ⟨rfl, rfl⟩)

/-- The pending-marking fold touches only the world. -/
theorem pendingMarkFold_frame (rid : Nat) (l : List MemberInfo) :
    ∀ (s : ServiceState),
    (l.foldl (pendingMarkStep rid) s).pendingRequests = s.pendingRequests ∧
    (l.foldl (pendingMarkStep rid) s).entityToRequest = s.entityToRequest ∧
    (l.foldl (pendingMarkStep rid) s).nextRequestId = s.nextRequestId ∧
    (l.foldl (pendingMarkStep rid) s).submitted = s.submitted ∧
    (l.foldl (pendingMarkStep rid) s).allocated = s.allocated := by
  induction l with
  | nil => exact fun s => ⟨rfl, rfl, rfl, rfl, rfl⟩
  | cons a t ih =>
    intro s
    simp only [List.foldl_cons]
    obtain ⟨i1, i2, i3, i4, i5⟩ := ih (pendingMarkStep rid s a)
    obtain ⟨f1, f2, f3, f4, f5⟩ := pendingMarkStep_frame rid s a
    exact ⟨i1.trans f1, i2.trans f2, i3.trans f3, i4.trans f4, i5.trans f5⟩

/-- After the pending-marking fold, every listed member's movement
component (when present) is pending on the shared request. -/
theorem pendingMarkFold_post (rid : Nat) (l : List MemberInfo) (m : MemberInfo)
    (hm : m ∈ l) (s : ServiceState) :
    ∀ ent, (l.foldl (pendingMarkStep rid) s).world m.id = some ent →
      ∀ mv, ent.movement = some mv →
        mv.pathPending = true ∧ mv.pendingRequestId = rid := by
  refine foldl_establishes (pendingMarkStep rid)
    (fun s => ∀ ent, s.world m.id = some ent → ∀ mv, ent.movement = some mv →
      mv.pathPending = true ∧ mv.pendingRequestId = rid) m
    (fun s => pendingMarkStep_post rid s m) l hm ?_ s
  intro s a _ h
  by_cases hx : m.id = a.id
  · intro ent hent
    rw [hx] at hent
    exact pendingMarkStep_post rid s a ent hent
  · intro ent hent mv hmv
    rw [pendingMarkStep_world_other rid s a m.id hx] at hent
    exact h ent hent mv hmv

/-- The ledger-registration step changes only the entity-to-request map,
pointwise. -/
theorem registerStep_er (rid : Nat) (s : ServiceState) (m : MemberInfo) (x : Nat) :
    (registerStep rid s m).entityToRequest x =
      if x = m.id then some rid else s.entityToRequest x := rfl

/-- The ledger-registration fold touches only the entity-to-request map. -/
theorem registerFold_frame (rid : Nat) (l : List MemberInfo) :
    ∀ (s : ServiceState),
    (l.foldl (registerStep rid) s).pendingRequests = s.pendingRequests ∧
    (l.foldl (registerStep rid) s).world = s.world ∧
    (l.foldl (registerStep rid) s).nextRequestId = s.nextRequestId ∧
    (l.foldl (registerStep rid) s).submitted = s.submitted ∧
    (l.foldl (registerStep rid) s).allocated = s.allocated := by
  induction l with
  | nil => exact fun s => ⟨rfl, rfl, rfl, rfl, rfl⟩
  | cons a t ih =>
    intro s
    simp only [List.foldl_cons]
    obtain ⟨i1, i2, i3, i4, i5⟩ := ih (registerStep rid s a)
    exact ⟨i1, i2, i3, i4, i5⟩

/-- After the ledger-registration fold, every listed member points at the
shared request id. -/
theorem registerFold_er_mem (rid : Nat) (l : List MemberInfo) (m : MemberInfo)
    (hm : m ∈ l) (s : ServiceState) :
    (l.foldl (registerStep rid) s).entityToRequest m.id = some rid := by
  refine foldl_establishes (registerStep rid)
    (fun s => s.entityToRequest m.id = some rid) m ?_ l hm ?_ s
  · intro s
    rw [registerStep_er]
    simp
  · intro s a _ h
    rw [registerStep_er]
    split
    · rfl
    · exact h

/-- The asynchronous formation tail: one id allocated, one submission with
the given cells, one ledger entry owned by the leader listing every member
(the leader included), every member registered and marked pending. -/
theorem formationAsync_spec (st : ServiceState) (members : List MemberInfo)
    (opts : MoveOptions) (leader : MemberInfo) (startC endC : Point) :
    (formationAsync st members opts leader startC endC).nextRequestId = st.nextRequestId + 1 ∧
    (formationAsync st members opts leader startC endC).allocated =
      st.allocated ++ [st.nextRequestId] ∧
    (formationAsync st members opts leader startC endC).submitted =
      st.submitted ++ [(st.nextRequestId, startC, endC)] ∧
    (formationAsync st members opts leader startC endC).pendingRequests st.nextRequestId =
      some { entity_id := leader.id, target := leader.target, options := opts
             groupMembers := members.map (fun m => m.id)
             groupTargets := members.map (fun m => m.target) } ∧
    (∀ m ∈ members,
      (formationAsync st members opts leader startC endC).entityToRequest m.id =
        some st.nextRequestId) ∧
    (∀ m ∈ members, ∀ ent,
      (formationAsync st members opts leader startC endC).world m.id = some ent →
      ∀ mv, ent.movement = some mv →
        mv.pathPending = true ∧ mv.pendingRequestId = st.nextRequestId) := by
  simp only [formationAsync, allocId]
  refine ⟨?_, ?_, ?_, ?_, ?_, ?_⟩
  · exact ((registerFold_frame _ _ _).2.2.1).trans ((pendingMarkFold_frame _ _ _).2.2.1)
  · exact ((registerFold_frame _ _ _).2.2.2.2).trans ((pendingMarkFold_frame _ _ _).2.2.2.2)
  · exact congrArg (fun l => l ++ [(st.nextRequestId, startC, endC)])
      (((registerFold_frame _ _ _).2.2.2.1).trans ((pendingMarkFold_frame _ _ _).2.2.2.1))
  · exact (congrFun ((registerFold_frame _ _ _).1) st.nextRequestId).trans (by simp [prUpdate])
  · exact fun m hm => registerFold_er_mem st.nextRequestId members m hm _
  · intro m hm ent hent mv hmv
    rw [congrFun ((registerFold_frame _ _ _).2.1) m.id] at hent
    exact pendingMarkFold_post st.nextRequestId members m hm _ ent hent mv hmv

/-- A formation command whose leader cells differ and fall outside the
direct-path shortcut reaches the asynchronous tail on the reset state. -/
theorem formationPath_async (st : ServiceState) (m0 m1 : MemberInfo)
    (rest : List MemberInfo) (opts : MoveOptions) (pf : Pathfinding)
    (leader : MemberInfo) (startC endC : Point)
    (hpf : st.pathfinder = some pf)
    (hleader : electLeader (vdiv (vsum ((m0 :: m1 :: rest).map (fun m => m.target)))
      (((m0 :: m1 :: rest).length : ℚ))) m0 (m1 :: rest) = leader)
    (hstart : worldToGridPf pf leader.posX leader.posZ = startC)
    (hend : worldToGridPf pf leader.target.x leader.target.z = endC)
    (hne : ¬(startC = endC))
    (hfar : ¬(((endC.x - startC.x).natAbs : Int) + ((endC.y - startC.y).natAbs : Int) ≤
        DIRECT_PATH_THRESHOLD ∧ opts.allowDirectFallback = true)) :
    formationPath st (m0 :: m1 :: rest) opts =
      formationAsync ((m0 :: m1 :: rest).foldl resetRegroupMember st) (m0 :: m1 :: rest)
        opts leader startC endC := by
  have hpfR : ((m0 :: m1 :: rest).foldl resetRegroupMember st).pathfinder = some pf := by
    refine Eq.trans ?_ hpf
    exact foldl_preserves resetRegroupMember (fun s => s.pathfinder = st.pathfinder)
      (m0 :: m1 :: rest) (fun s a _ h => ((resetRegroupMember_frame s a).1).trans h) st rfl
  simp only [formationPath, hleader, hpfR]
  rw [hstart, hend]
  rw [if_neg hne, if_neg hfar]

/-- Claim C7 (corrected).  A group move reaching asynchronous formation
pathing allocates exactly one new request id, submits exactly one search
with the elected leader's start and end cells, registers exactly one ledger
entry owned by the leader, maps every regroup member to that id and marks
every regroup member's movement component pending on it — but the entry's
groupMembers/groupTargets list every regroup member including the leader
itself, not only the others. -/
theorem claim_C7 (st : ServiceState) (m0 m1 : MemberInfo) (rest : List MemberInfo)
    (opts : MoveOptions) (pf : Pathfinding) (leader : MemberInfo) (startC endC : Point)
    (hpf : st.pathfinder = some pf)
    (hleader : electLeader (vdiv (vsum ((m0 :: m1 :: rest).map (fun m => m.target)))
      (((m0 :: m1 :: rest).length : ℚ))) m0 (m1 :: rest) = leader)
    (hstart : worldToGridPf pf leader.posX leader.posZ = startC)
    (hend : worldToGridPf pf leader.target.x leader.target.z = endC)
    (hne : ¬(startC = endC))
    (hfar : ¬(((endC.x - startC.x).natAbs : Int) + ((endC.y - startC.y).natAbs : Int) ≤
        DIRECT_PATH_THRESHOLD ∧ opts.allowDirectFallback = true)) :
    (formationPath st (m0 :: m1 :: rest) opts).nextRequestId = st.nextRequestId + 1 ∧
    (formationPath st (m0 :: m1 :: rest) opts).allocated =
      st.allocated ++ [st.nextRequestId] ∧
    (formationPath st (m0 :: m1 :: rest) opts).submitted =
      st.submitted ++ [(st.nextRequestId, startC, endC)] ∧
    (formationPath st (m0 :: m1 :: rest) opts).pendingRequests st.nextRequestId =
      some { entity_id := leader.id, target := leader.target, options := opts
             groupMembers := (m0 :: m1 :: rest).map (fun m => m.id)
             groupTargets := (m0 :: m1 :: rest).map (fun m => m.target) } ∧
    (∀ m ∈ m0 :: m1 :: rest,
      (formationPath st (m0 :: m1 :: rest) opts).entityToRequest m.id =
        some st.nextRequestId) ∧
    (∀ m ∈ m0 :: m1 :: rest, ∀ ent,
      (formationPath st (m0 :: m1 :: rest) opts).world m.id = some ent →
      ∀ mv, ent.movement = some mv →
        mv.pathPending = true ∧ mv.pendingRequestId = st.nextRequestId) := by
  have hRfr := foldl_preserves resetRegroupMember
    (fun s => s.nextRequestId = st.nextRequestId ∧ s.submitted = st.submitted ∧
      s.allocated = st.allocated)
    (m0 :: m1 :: rest)
    (fun s a _ h => by
      obtain ⟨_, f2, f3, f4⟩ := resetRegroupMember_frame s a
      exact ⟨f2.trans h.1, f3.trans h.2.1, f4.trans h.2.2⟩) st ⟨rfl, rfl, rfl⟩
  rw [formationPath_async st m0 m1 rest opts pf leader startC endC hpf hleader hstart
    hend hne hfar]
  obtain ⟨s1, s2, s3, s4, s5, s6⟩ := formationAsync_spec
    ((m0 :: m1 :: rest).foldl resetRegroupMember st) (m0 :: m1 :: rest) opts leader startC endC
  rw [hRfr.1] at s1 s4 s5 s6
  rw [hRfr.1, hRfr.2.2] at s2
  rw [hRfr.1, hRfr.2.1] at s3
  exact ⟨s1, s2, s3, s4, s5, s6⟩

/-- The C7 fixture entity template: an idle unit with a movement component
standing at a given x-coordinate. -/
def c7Ent (x : ℚ) : Entity :=
  { transform := some { posX := x, posZ := 0, scaleX := 1, scaleZ := 1 }
    movement := some MovementComponent.default
    attack := none, attackTarget := none, holdMode := none, unit := none, building := false }

/-- The C7 fixture world: three idle units in a row. -/
def c7World : WorldMap := fun i =>
  if i = 1 then some (c7Ent 0)
  else if i = 2 then some (c7Ent 1)
  else if i = 3 then some (c7Ent 2) else none

/-- The C7 fixture state: a freshly initialized service over the row. -/
def c7St : ServiceState := initState c7World 10 10 (fun _ _ => true)

/-- The C7 group-move options. -/
def c7Opts : MoveOptions :=
  { groupMove := true, clearAttackIntent := true, allowDirectFallback := true }

/-- Counterexample to claim C7 as stated: the registered ledger entry's
groupMembers list contains the elected leader (entity 2) itself, not only
the other regroup members. -/
theorem claim_C7_counterexample :
    ((moveGroup (fun q => q) c7St [1, 2, 3] [⟨30, 30⟩, ⟨31, 30⟩, ⟨32, 30⟩]
        c7Opts).pendingRequests 1).map
      (fun info => decide (info.entity_id ∈ info.groupMembers)) = some true := by
  decide

/-- The first C7 member record (unit 1 at the origin heading to (30,30)). -/
def c7m1 : MemberInfo :=
  { id := 1, target := ⟨30, 30⟩, engaged := false, speed := 1
    spawn := SpawnType.Archer, posX := 0, posZ := 0 }

/-- The second C7 member record (unit 2, the eventual leader). -/
def c7m2 : MemberInfo :=
  { id := 2, target := ⟨31, 30⟩, engaged := false, speed := 1
    spawn := SpawnType.Archer, posX := 1, posZ := 0 }

/-- The third C7 member record. -/
def c7m3 : MemberInfo :=
  { id := 3, target := ⟨32, 30⟩, engaged := false, speed := 1
    spawn := SpawnType.Archer, posX := 2, posZ := 0 }

/-- The 10x10 all-walkable pathfinder produced by initialization. -/
def c7Pf : Pathfinding :=
  { gridOffsetX := -(9/2), gridOffsetZ := -(9/2), walkable := fun _ _ => true }

/-- The C7 witness base state. -/
def c7Base : ServiceState :=
  { pathfinder := some c7Pf, pendingRequests := fun _ => none
    entityToRequest := fun _ => none, nextRequestId := 1, world := c7World
    submitted := [], allocated := [] }

/-- Witness for claim C7: the three-member formation command allocates id 1,
submits the leader's search from cell (6,5) to (36,35), registers the
ledger entry owned by leader 2 listing all three members, and maps member 1
to the request. -/
theorem claim_C7_witness :
    (formationPath c7Base [c7m1, c7m2, c7m3] c7Opts).nextRequestId = 2 ∧
    (formationPath c7Base [c7m1, c7m2, c7m3] c7Opts).submitted =
      [(1, ⟨6, 5⟩, ⟨36, 35⟩)] ∧
    (formationPath c7Base [c7m1, c7m2, c7m3] c7Opts).pendingRequests 1 =
      some { entity_id := 2, target := ⟨31, 30⟩, options := c7Opts
             groupMembers := [1, 2, 3]
             groupTargets := [⟨30, 30⟩, ⟨31, 30⟩, ⟨32, 30⟩] } ∧
    (formationPath c7Base [c7m1, c7m2, c7m3] c7Opts).entityToRequest 1 = some 1 := by
  obtain ⟨h1, h2, h3, h4, h5, h6⟩ := claim_C7 c7Base c7m1 c7m2 [c7m3] c7Opts c7Pf c7m2
    ⟨6, 5⟩ ⟨36, 35⟩ rfl (by decide) (by decide) (by decide) (by decide) (by decide)
  refine ⟨h1, ?_, ?_, ?_⟩
  · exact h3.trans (by decide)
  · exact h4.trans (by decide)
  · exact h5 c7m1 (by simp)

/-! ### Claim C10: allocation discipline -/

/-- The allocation discipline: the counter is at least 1, and every id
drawn from it so far is nonzero, below the counter and pairwise distinct. -/
def AllocInv (st : ServiceState) : Prop :=
  1 ≤ st.nextRequestId ∧ st.allocated.Nodup ∧
    ∀ a ∈ st.allocated, 1 ≤ a ∧ a < st.nextRequestId

theorem allocInv_of_frame {st st' : ServiceState}
    (h1 : st'.nextRequestId = st.nextRequestId) (h2 : st'.allocated = st.allocated)
    (h : AllocInv st) : AllocInv st' := by
  unfold AllocInv at h ⊢
  rw [h1, h2]
  exact h

/-- Drawing from the counter preserves the allocation discipline: the fresh
id is nonzero, new to the log, and stays below the bumped counter. -/
theorem allocInv_allocId (st : ServiceState) (h : AllocInv st) :
    AllocInv (allocId st).2 := by
  obtain ⟨h1, h2, h3⟩ := h
  refine ⟨?_, ?_, ?_⟩
  · show 1 ≤ st.nextRequestId + 1
    omega
  · show (st.allocated ++ [st.nextRequestId]).Nodup
    rw [List.nodup_append]
    refine ⟨h2, List.nodup_singleton _, ?_⟩
    intro a ha hmem
    have hlt := (h3 a ha).2
    have : a = st.nextRequestId := by simpa using hmem
    omega
  · show ∀ a ∈ st.allocated ++ [st.nextRequestId], 1 ≤ a ∧ a < st.nextRequestId + 1
    intro a ha
    rcases List.mem_append.mp ha with ha | ha
    · obtain ⟨g1, g2⟩ := h3 a ha
      exact ⟨g1, by omega⟩
    · have : a = st.nextRequestId := by simpa using ha
      subst this
      exact ⟨h1, by omega⟩

theorem allocInv_exitHold (st : ServiceState) (eid : Nat) (h : AllocInv st) :
    AllocInv (exitHold st eid) := by
  obtain ⟨_, _, _, f4, _, f6⟩ := exitHold_frame st eid
  exact allocInv_of_frame f4 f6 h

theorem allocInv_ensureMovement (st : ServiceState) (eid : Nat) (h : AllocInv st) :
    AllocInv (ensureMovement st eid).1 := by
  obtain ⟨_, _, _, f4, _, f6⟩ := ensureMovement_frame st eid
  exact allocInv_of_frame f4 f6 h

theorem allocInv_removeAttackTarget (st : ServiceState) (eid : Nat) (h : AllocInv st) :
    AllocInv (removeAttackTarget st eid) := by
  obtain ⟨_, _, _, f4, _, f6⟩ := removeAttackTarget_frame st eid
  exact allocInv_of_frame f4 f6 h

theorem allocInv_checkMatchedPending (st : ServiceState) (eid : Nat)
    (mv : MovementComponent) (opts : MoveOptions) (tgt : Vec2) (h : AllocInv st) :
    AllocInv (checkMatchedPending st eid mv opts tgt).1 := by
  obtain ⟨_, f2, _, f4, _, _⟩ := checkMatchedPending_frame st eid mv opts tgt
  exact allocInv_of_frame f2 f4 h

theorem allocInv_setMovement (st : ServiceState) (eid : Nat) (m : MovementComponent)
    (h : AllocInv st) : AllocInv (setMovement st eid m) := by
  obtain ⟨_, _, _, f4, _, f6⟩ := setMovement_frame st eid m
  exact allocInv_of_frame f4 f6 h

theorem allocInv_modifyMovement (st : ServiceState) (eid : Nat)
    (f : MovementComponent → MovementComponent) (h : AllocInv st) :
    AllocInv (modifyMovement st eid f) := by
  obtain ⟨_, _, _, f4, _, f6⟩ := modifyMovement_frame st eid f
  exact allocInv_of_frame f4 f6 h

theorem allocInv_clearPendingRequest (st : ServiceState) (eid : Nat) (h : AllocInv st) :
    AllocInv (clearPendingRequest st eid) := by
  obtain ⟨_, _, f3, _, f5⟩ := clearPendingRequest_frame st eid
  exact allocInv_of_frame f3 f5 h

theorem allocInv_issueAsyncRequest (st : ServiceState) (eid : Nat)
    (mv : MovementComponent) (opts : MoveOptions) (tgt : Vec2) (s e : Point)
    (h : AllocInv st) : AllocInv (issueAsyncRequest st eid mv opts tgt s e) := by
  simp only [issueAsyncRequest]
  obtain ⟨_, _, c3, _, c5⟩ := checkExistingRequest_frame st eid opts tgt
  have hc : AllocInv (checkExistingRequest st eid opts tgt).1 := allocInv_of_frame c3 c5 h
  split
  · exact hc
  · exact allocInv_setMovement _ _ _ (allocInv_of_frame rfl rfl (allocInv_allocId _ hc))

theorem allocInv_resolvePath (st : ServiceState) (eid : Nat) (tr : TransformComponent)
    (mv : MovementComponent) (opts : MoveOptions) (tgt : Vec2) (h : AllocInv st) :
    AllocInv (resolvePath st eid tr mv opts tgt) := by
  simp only [resolvePath]
  repeat' split
  all_goals first
    | exact allocInv_clearPendingRequest _ _ (allocInv_setMovement _ _ _ h)
    | exact allocInv_issueAsyncRequest _ _ _ _ _ _ _ h

theorem allocInv_moveOneUnit (st : ServiceState) (eid : Nat) (tgt : Vec2)
    (opts : MoveOptions) (h : AllocInv st) : AllocInv (moveOneUnit st eid tgt opts) := by
  simp only [moveOneUnit]
  repeat' split
  all_goals first
    | exact h
    | exact allocInv_exitHold _ _ h
    | exact allocInv_setMovement _ _ _ (allocInv_checkMatchedPending _ _ _ _ _
        (allocInv_removeAttackTarget _ _ (allocInv_ensureMovement _ _ (allocInv_exitHold _ _ h))))
    | exact allocInv_setMovement _ _ _ (allocInv_checkMatchedPending _ _ _ _ _
        (allocInv_ensureMovement _ _ (allocInv_exitHold _ _ h)))
    | exact allocInv_resolvePath _ _ _ _ _ _ (allocInv_setMovement _ _ _
        (allocInv_checkMatchedPending _ _ _ _ _ (allocInv_removeAttackTarget _ _
          (allocInv_ensureMovement _ _ (allocInv_exitHold _ _ h)))))
    | exact allocInv_resolvePath _ _ _ _ _ _ (allocInv_setMovement _ _ _
        (allocInv_checkMatchedPending _ _ _ _ _
          (allocInv_ensureMovement _ _ (allocInv_exitHold _ _ h))))

theorem allocInv_moveUnitsCore (st : ServiceState) (units : List Nat)
    (targets : List Vec2) (opts : MoveOptions) (h : AllocInv st) :
    AllocInv (moveUnitsCore st units targets opts) := by
  unfold moveUnitsCore
  exact foldl_preserves _ AllocInv _
    (fun s p _ hs => allocInv_moveOneUnit s p.1 p.2 opts hs) st h

theorem allocInv_buildMemberStep (opts : MoveOptions)
    (acc : ServiceState × List MemberInfo) (p : Nat × Vec2) (h : AllocInv acc.1) :
    AllocInv (buildMemberStep opts acc p).1 := by
  simp only [buildMemberStep]
  repeat' split
  all_goals first
    | exact h
    | exact allocInv_exitHold _ _ h
    | exact allocInv_removeAttackTarget _ _
        (allocInv_ensureMovement _ _ (allocInv_exitHold _ _ h))
    | exact allocInv_ensureMovement _ _ (allocInv_exitHold _ _ h)

theorem allocInv_setMemberDirect (wc : Bool) (s : ServiceState) (m : MemberInfo)
    (h : AllocInv s) : AllocInv (setMemberDirect wc s m) := by
  simp only [setMemberDirect]
  exact allocInv_modifyMovement _ _ _ h

theorem allocInv_formationAsync (st : ServiceState) (members : List MemberInfo)
    (opts : MoveOptions) (leader : MemberInfo) (startC endC : Point) (h : AllocInv st) :
    AllocInv (formationAsync st members opts leader startC endC) := by
  obtain ⟨a1, a2, _, _, _, _⟩ := formationAsync_spec st members opts leader startC endC
  exact allocInv_of_frame a1 a2 (allocInv_allocId st h)

theorem allocInv_formationPath (st : ServiceState) (members : List MemberInfo)
    (opts : MoveOptions) (h : AllocInv st) : AllocInv (formationPath st members opts) := by
  cases members with
  | nil => simpa only [formationPath] using h
  | cons m0 rest =>
    simp only [formationPath]
    have hR : AllocInv ((m0 :: rest).foldl resetRegroupMember st) := by
      refine foldl_preserves resetRegroupMember AllocInv _ (fun s a _ hs => ?_) st h
      obtain ⟨_, f2, _, f4⟩ := resetRegroupMember_frame s a
      exact allocInv_of_frame f2 f4 hs
    repeat' split
    all_goals first
      | exact foldl_preserves (setMemberDirect false) AllocInv _
          (fun s a _ hs => allocInv_setMemberDirect false s a hs) _ hR
      | exact foldl_preserves (setMemberDirect true) AllocInv _
          (fun s a _ hs => allocInv_setMemberDirect true s a hs) _ hR
      | exact allocInv_formationAsync _ _ _ _ _ _ hR

theorem allocInv_groupPlan (fsqrt : ℚ → ℚ) (st : ServiceState)
    (members : List MemberInfo) (opts : MoveOptions) (h : AllocInv st) :
    AllocInv (groupPlan fsqrt st members opts) := by
  simp only [groupPlan]
  repeat' split
  all_goals first
    | exact h
    | exact allocInv_moveUnitsCore _ _ _ _ h
    | exact allocInv_moveUnitsCore _ _ _ _ (allocInv_moveUnitsCore _ _ _ _ h)
    | exact allocInv_formationPath _ _ _ h
    | exact allocInv_formationPath _ _ _ (allocInv_moveUnitsCore _ _ _ _ h)

theorem allocInv_moveGroup (fsqrt : ℚ → ℚ) (st : ServiceState) (units : List Nat)
    (targets : List Vec2) (opts : MoveOptions) (h : AllocInv st) :
    AllocInv (moveGroup fsqrt st units targets opts) := by
  have hB : AllocInv (buildMembers st units targets opts).1 := by
    unfold buildMembers
    exact foldl_preserves (buildMemberStep opts) (fun acc => AllocInv acc.1) _
      (fun s a _ hs => allocInv_buildMemberStep opts s a hs) (st, []) h
  simp only [moveGroup]
  repeat' split
  all_goals first
    | exact hB
    | exact allocInv_moveUnitsCore _ _ _ _ hB
    | exact allocInv_groupPlan _ _ _ _ hB

theorem allocInv_moveUnits (fsqrt : ℚ → ℚ) (st : ServiceState) (units : List Nat)
    (targets : List Vec2) (opts : MoveOptions) (h : AllocInv st) :
    AllocInv (moveUnits fsqrt st units targets opts) := by
  simp only [moveUnits]
  repeat' split
  all_goals first
    | exact h
    | exact allocInv_moveGroup _ _ _ _ _ h
    | exact allocInv_moveUnitsCore _ _ _ _ h

theorem allocInv_processOneResult (pf : Pathfinding) (st : ServiceState)
    (r : Nat × List Point) (h : AllocInv st) : AllocInv (processOneResult pf st r) := by
  simp only [processOneResult]
  split
  · exact h
  · exact allocInv_of_frame rfl rfl h

theorem allocInv_processPathResults (st : ServiceState)
    (results : List (Nat × List Point)) (h : AllocInv st) :
    AllocInv (processPathResults st results) := by
  simp only [processPathResults]
  split
  · exact h
  · exact foldl_preserves _ AllocInv _
      (fun s r _ hs => allocInv_processOneResult _ s r hs) st h

theorem allocInv_initService (st : ServiceState) (w hgt : Int)
    (walk : Int → Int → Bool) : AllocInv (initService st w hgt walk) :=
  ⟨le_refl 1, List.nodup_nil, by simp [initService]⟩

theorem allocInv_applyOp (st : ServiceState) (op : Op) (h : AllocInv st) :
    AllocInv (applyOp st op) := by
  cases op with
  | mvUnits fsqrt units targets opts => exact allocInv_moveUnits fsqrt st units targets opts h
  | mvGroup fsqrt units targets opts => exact allocInv_moveGroup fsqrt st units targets opts h
  | procResults results => exact allocInv_processPathResults st results h
  | clearReq eid => exact allocInv_clearPendingRequest st eid h
  | reinit w hgt walk => exact allocInv_initService st w hgt walk

/-- Claim C10 (confirmed).  After any operation sequence on a freshly
initialized service, the request counter is at least 1 and every id it has
handed out is nonzero (so it can never collide with the sentinel 0 stored
in `pendingRequestId` to mean "no request"), below the counter, and
pairwise distinct. -/
theorem claim_C10 (world : WorldMap) (W H : Int) (walk : Int → Int → Bool)
    (ops : List Op) :
    1 ≤ (runOps (initState world W H walk) ops).nextRequestId ∧
    (runOps (initState world W H walk) ops).allocated.Nodup ∧
    ∀ a ∈ (runOps (initState world W H walk) ops).allocated,
      1 ≤ a ∧ a < (runOps (initState world W H walk) ops).nextRequestId := by
  have hinv : AllocInv (runOps (initState world W H walk) ops) := by
    unfold runOps
    refine foldl_preserves applyOp AllocInv ops
      (fun s op _ hs => allocInv_applyOp s op hs) _ ?_
    exact allocInv_initService _ _ _ _
  exact hinv

/-- The C10 witness operation list: one single-unit move command that
allocates request id 1. -/
def c10Ops : List Op :=
  [Op.mvUnits (fun q => q) [1] [⟨20, 20⟩]
    { groupMove := false, clearAttackIntent := true, allowDirectFallback := true }]

/-- Witness for claim C10: after the concrete move command the counter is 2,
the allocation log is exactly [1], and the drawn id 1 is nonzero and below
the counter. -/
theorem claim_C10_witness :
    1 ≤ (runOps (initState c7World 10 10 (fun _ _ => true)) c10Ops).nextRequestId ∧
    (runOps (initState c7World 10 10 (fun _ _ => true)) c10Ops).allocated.Nodup ∧
    (1 ∈ (runOps (initState c7World 10 10 (fun _ _ => true)) c10Ops).allocated ∧
      1 ≤ 1 ∧ 1 < (runOps (initState c7World 10 10 (fun _ _ => true)) c10Ops).nextRequestId) := by
  obtain ⟨h1, h2, h3⟩ := claim_C10 c7World 10 10 (fun _ _ => true) c10Ops
  exact ⟨h1, h2, by decide, h3 1 (by decide)⟩

/-! ### Claim C1: ledger consistency -/

/-- The follower-consistency invariant: whenever a request record is live,
its owner and every listed group member still map to that request id in the
entity-to-request ledger. -/
def FollowerInv (st : ServiceState) : Prop :=
  ∀ rid info, st.pendingRequests rid = some info →
    ∀ m ∈ info.entity_id :: info.groupMembers, st.entityToRequest m = some rid

theorem followerInv_of_frame {st st' : ServiceState}
    (h1 : st'.pendingRequests = st.pendingRequests)
    (h2 : st'.entityToRequest = st.entityToRequest)
    (h : FollowerInv st) : FollowerInv st' := by
  intro r info hpr m hm
  rw [h1] at hpr
  rw [h2]
  exact h r info hpr m hm

/-- The elected leader is one of the candidates. -/
theorem electLeader_mem (avg : Vec2) :
    ∀ (l : List MemberInfo) (best : MemberInfo), electLeader avg best l ∈ best :: l := by
  intro l
  induction l with
  | nil => intro best; simp [electLeader]
  | cons a t ih =>
    intro best
    simp only [electLeader]
    split
    · rcases List.mem_cons.mp (ih a) with h | h
      · rw [h]; exact List.mem_cons_of_mem best (List.mem_cons_self a t)
      · exact List.mem_cons_of_mem best (List.mem_cons_of_mem a h)
    · rcases List.mem_cons.mp (ih best) with h | h
      · rw [h]; exact List.mem_cons_self best (a :: t)
      · exact List.mem_cons_of_mem best (List.mem_cons_of_mem a h)

/-- The member-erasure fold of `clearPendingRequest` leaves entries that do
not point at the cleared id alone. -/
theorem clearFold_preserve_ne (rid : Nat) (ms : List Nat) (x : Nat) :
    ∀ (s : ServiceState), s.entityToRequest x ≠ some rid →
    ((ms.foldl
      (fun s m =>
        if s.entityToRequest m = some rid then
          { s with entityToRequest := erUpdate s.entityToRequest m none }
        else s) s).entityToRequest x) = s.entityToRequest x := by
  induction ms with
  | nil => intro s _; rfl
  | cons m rest ih =>
    intro s hx
    simp only [List.foldl_cons]
    split
    · rename_i hm
      have hxm : x ≠ m := by
        intro he
        subst he
        exact hx hm
      have h1 : ({ s with entityToRequest := erUpdate s.entityToRequest m none } :
          ServiceState).entityToRequest x = s.entityToRequest x := by
        show erUpdate s.entityToRequest m none x = s.entityToRequest x
        unfold erUpdate
        rw [if_neg hxm]
      rw [ih _ (by rw [h1]; exact hx)]
      exact h1
    · exact ih _ hx

/-- The entry-erasure fold of `processPathResults` leaves entries that do
not point at the consumed id alone. -/
theorem removeFold_preserve_ne (rid : Nat) (ids : List Nat) (x : Nat) :
    ∀ (er : Nat → Option Nat), er x ≠ some rid →
    (ids.foldl (fun m i => if m i = some rid then erUpdate m i none else m) er) x = er x := by
  induction ids with
  | nil => intro er _; rfl
  | cons i rest ih =>
    intro er hx
    simp only [List.foldl_cons]
    split
    · rename_i hi
      have hxi : x ≠ i := by
        intro he
        subst he
        exact hx hi
      have h1 : erUpdate er i none x = er x := by
        unfold erUpdate
        rw [if_neg hxi]
      rw [ih _ (by rw [h1]; exact hx), h1]
    · exact ih _ hx

/-- The ledger-registration fold leaves unlisted entities alone. -/
theorem registerFold_er_other (rid : Nat) (l : List MemberInfo) (x : Nat) :
    ∀ (s : ServiceState), (∀ a ∈ l, ¬(x = a.id)) →
    (l.foldl (registerStep rid) s).entityToRequest x = s.entityToRequest x := by
  induction l with
  | nil => intro s _; rfl
  | cons a rest ih =>
    intro s hx
    simp only [List.foldl_cons]
    rw [ih _ (fun b hb => hx b (List.mem_cons_of_mem a hb))]
    rw [registerStep_er, if_neg (hx a (List.mem_cons_self a rest))]

/-- `clearPendingRequest` never resurrects an absent ledger entry. -/
theorem clearPendingRequest_er_none (st : ServiceState) (eid x : Nat)
    (hx : st.entityToRequest x = none) :
    (clearPendingRequest st eid).entityToRequest x = none := by
  simp only [clearPendingRequest]
  split
  · exact hx
  · split
    · show erUpdate st.entityToRequest eid none x = none
      unfold erUpdate
      by_cases hxe : x = eid
      · simp [hxe]
      · simp [hxe, hx]
    · refine clearFold_none _ _ _ x ?_
      show erUpdate st.entityToRequest eid none x = none
      unfold erUpdate
      by_cases hxe : x = eid
      · simp [hxe]
      · simp [hxe, hx]

/-- After the regroup reset, the member has no ledger entry. -/
theorem resetRegroupMember_er_self (s : ServiceState) (m : MemberInfo) :
    (resetRegroupMember s m).entityToRequest m.id = none := by
  simp only [resetRegroupMember]
  obtain ⟨_, c2, _, _, _, _⟩ := modifyMovement_frame
    (clearPendingRequest
      (modifyMovement s m.id (fun mv => { mv with goalX := m.target.x, goalY := m.target.z }))
      m.id) m.id
    (fun mv => { mv with target_x := m.posX, target_y := m.posZ, hasTarget := false
                         vx := 0, vz := 0, path := [], pathPending := false
                         pendingRequestId := 0 })
  rw [congrFun c2 m.id]
  exact clearPendingRequest_er_self _ m.id

/-- The regroup reset never resurrects an absent ledger entry. -/
theorem resetRegroupMember_er_none (s : ServiceState) (m : MemberInfo) (x : Nat)
    (hx : s.entityToRequest x = none) :
    (resetRegroupMember s m).entityToRequest x = none := by
  simp only [resetRegroupMember]
  obtain ⟨_, a2, _, _, _, _⟩ := modifyMovement_frame s m.id
    (fun mv => { mv with goalX := m.target.x, goalY := m.target.z })
  obtain ⟨_, c2, _, _, _, _⟩ := modifyMovement_frame
    (clearPendingRequest
      (modifyMovement s m.id (fun mv => { mv with goalX := m.target.x, goalY := m.target.z }))
      m.id) m.id
    (fun mv => { mv with target_x := m.posX, target_y := m.posZ, hasTarget := false
                         vx := 0, vz := 0, path := [], pathPending := false
                         pendingRequestId := 0 })
  rw [congrFun c2 x]
  refine clearPendingRequest_er_none _ m.id x ?_
  rw [congrFun a2 x]
  exact hx

/-- After the regroup-reset fold, every member's ledger entry is gone. -/
theorem resetFold_er_none (l : List MemberInfo) (m : MemberInfo) (hm : m ∈ l)
    (s : ServiceState) :
    ((l.foldl resetRegroupMember s).entityToRequest m.id) = none :=
  foldl_establishes resetRegroupMember (fun s => s.entityToRequest m.id = none) m
    (fun s => resetRegroupMember_er_self s m) l hm
    (fun s a _ h => resetRegroupMember_er_none s a m.id h) s

theorem followerInv_clearPendingRequest (st : ServiceState) (eid : Nat)
    (h : FollowerInv st) : FollowerInv (clearPendingRequest st eid) := by
  simp only [clearPendingRequest]
  split
  · exact h
  · rename_i rid her
    split
    · rename_i hpr0
      intro r info hprr m hm
      have hIH := h r info hprr m hm
      show erUpdate st.entityToRequest eid none m = some r
      unfold erUpdate
      by_cases hme : m = eid
      · subst hme
        rw [hIH] at her
        injection her with hh
        subst hh
        exact absurd hprr (by rw [hpr0]; simp)
      · rw [if_neg hme]
        exact hIH
    · rename_i info0 hpr0
      intro r info hprr m hm
      rw [(clearFold_frame rid info0.groupMembers _).1] at hprr
      have hprr2 : prUpdate st.pendingRequests rid none r = some info := hprr
      have hrne : r ≠ rid := by
        intro he
        subst he
        revert hprr2
        unfold prUpdate
        simp
      have hpr_st : st.pendingRequests r = some info := by
        revert hprr2
        unfold prUpdate
        rw [if_neg hrne]
        exact id
      have hIH := h r info hpr_st m hm
      have hmne : m ≠ eid := by
        intro he
        subst he
        rw [hIH] at her
        injection her with hh
        exact hrne hh
      refine (clearFold_preserve_ne rid info0.groupMembers m _ ?_).trans ?_
      · show erUpdate st.entityToRequest eid none m ≠ some rid
        unfold erUpdate
        rw [if_neg hmne, hIH]
        intro hcon
        injection hcon with hh
        exact hrne hh
      · show erUpdate st.entityToRequest eid none m = some r
        unfold erUpdate
        rw [if_neg hmne]
        exact hIH

theorem followerInv_checkMatchedPending (st : ServiceState) (eid : Nat)
    (mv : MovementComponent) (opts : MoveOptions) (tgt : Vec2) (h : FollowerInv st) :
    FollowerInv (checkMatchedPending st eid mv opts tgt).1 := by
  simp only [checkMatchedPending]
  split
  · split
    · exact h
    · rename_i rid her
      split
      · rename_i info0 hpr0
        split
        · intro r info hpr m hm
          have hpr2 : prUpdate st.pendingRequests rid (some { info0 with options := opts }) r =
              some info := hpr
          unfold prUpdate at hpr2
          by_cases hrr : r = rid
          · rw [if_pos hrr] at hpr2
            injection hpr2 with hinfo
            subst hinfo
            subst hrr
            exact h r info0 hpr0 m hm
          · rw [if_neg hrr] at hpr2
            exact h r info hpr2 m hm
        · exact h
      · rename_i hpr0
        intro r info hpr m hm
        have hpr2 : st.pendingRequests r = some info := hpr
        have hIH := h r info hpr2 m hm
        have hmne : m ≠ eid := by
          intro he
          subst he
          rw [hIH] at her
          injection her with hh
          subst hh
          rw [hpr0] at hpr2
          cases hpr2
        show erUpdate st.entityToRequest eid none m = some r
        unfold erUpdate
        rw [if_neg hmne]
        exact hIH
  · exact h

theorem followerInv_checkExistingRequest (st : ServiceState) (eid : Nat)
    (opts : MoveOptions) (tgt : Vec2) (h : FollowerInv st) :
    FollowerInv (checkExistingRequest st eid opts tgt).1 := by
  simp only [checkExistingRequest]
  split
  · exact h
  · rename_i rid her
    split
    · rename_i info0 hpr0
      split
      · intro r info hpr m hm
        have hpr2 : prUpdate st.pendingRequests rid (some { info0 with options := opts }) r =
            some info := hpr
        unfold prUpdate at hpr2
        by_cases hrr : r = rid
        · rw [if_pos hrr] at hpr2
          injection hpr2 with hinfo
          subst hinfo
          subst hrr
          exact h r info0 hpr0 m hm
        · rw [if_neg hrr] at hpr2
          exact h r info hpr2 m hm
      · intro r info hpr m hm
        have hpr2 : prUpdate st.pendingRequests rid none r = some info := hpr
        unfold prUpdate at hpr2
        by_cases hrr : r = rid
        · rw [if_pos hrr] at hpr2
          cases hpr2
        · rw [if_neg hrr] at hpr2
          have hIH := h r info hpr2 m hm
          have hmne : m ≠ eid := by
            intro he
            subst he
            rw [hIH] at her
            injection her with hh
            exact hrr hh
          show erUpdate st.entityToRequest eid none m = some r
          unfold erUpdate
          rw [if_neg hmne]
          exact hIH
    · rename_i hpr0
      intro r info hpr m hm
      have hpr2 : st.pendingRequests r = some info := hpr
      have hIH := h r info hpr2 m hm
      have hmne : m ≠ eid := by
        intro he
        subst he
        rw [hIH] at her
        injection her with hh
        subst hh
        rw [hpr0] at hpr2
        cases hpr2
      show erUpdate st.entityToRequest eid none m = some r
      unfold erUpdate
      rw [if_neg hmne]
      exact hIH

theorem followerInv_issueAsyncRequest (st : ServiceState) (eid : Nat)
    (mv : MovementComponent) (opts : MoveOptions) (tgt : Vec2) (s e : Point)
    (h : FollowerInv st) : FollowerInv (issueAsyncRequest st eid mv opts tgt s e) := by
  have hc : FollowerInv (checkExistingRequest st eid opts tgt).1 :=
    followerInv_checkExistingRequest st eid opts tgt h
  simp only [issueAsyncRequest]
  split
  · exact hc
  · rename_i hskip
    have hfalse : (checkExistingRequest st eid opts tgt).2 = false := by
      revert hskip
      cases (checkExistingRequest st eid opts tgt).2 <;> simp
    have her : (checkExistingRequest st eid opts tgt).1.entityToRequest eid = none := by
      revert hfalse
      simp only [checkExistingRequest]
      split
      · rename_i hnone
        intro _
        exact hnone
      · split
        · split
          · simp
          · intro _
            show erUpdate st.entityToRequest eid none eid = none
            unfold erUpdate
            simp
        · intro _
          show erUpdate st.entityToRequest eid none eid = none
          unfold erUpdate
          simp
    obtain ⟨s1, s2, _, _, _, _⟩ := setMovement_frame _ eid _
    refine followerInv_of_frame s1 s2 ?_
    intro r info hpr m hm
    have hpr2 : prUpdate (checkExistingRequest st eid opts tgt).1.pendingRequests
        (checkExistingRequest st eid opts tgt).1.nextRequestId
        (some { entity_id := eid, target := tgt, options := opts
                groupMembers := [], groupTargets := [] }) r = some info := hpr
    unfold prUpdate at hpr2
    by_cases hrr : r = (checkExistingRequest st eid opts tgt).1.nextRequestId
    · rw [if_pos hrr] at hpr2
      injection hpr2 with hinfo
      subst hinfo
      have hme : m = eid := by simpa using hm
      rw [hme]
      show erUpdate (checkExistingRequest st eid opts tgt).1.entityToRequest eid
        (some (checkExistingRequest st eid opts tgt).1.nextRequestId) eid = some r
      unfold erUpdate
      rw [if_pos rfl, hrr]
    · rw [if_neg hrr] at hpr2
      have hIH := hc r info hpr2 m hm
      have hmne : m ≠ eid := by
        intro he
        subst he
        rw [her] at hIH
        cases hIH
      show erUpdate (checkExistingRequest st eid opts tgt).1.entityToRequest eid
        (some (checkExistingRequest st eid opts tgt).1.nextRequestId) m = some r
      unfold erUpdate
      rw [if_neg hmne]
      exact hIH

theorem followerInv_exitHold (st : ServiceState) (eid : Nat) (h : FollowerInv st) :
    FollowerInv (exitHold st eid) := by
  obtain ⟨f1, f2, _, _, _, _⟩ := exitHold_frame st eid
  exact followerInv_of_frame f1 f2 h

theorem followerInv_ensureMovement (st : ServiceState) (eid : Nat) (h : FollowerInv st) :
    FollowerInv (ensureMovement st eid).1 := by
  obtain ⟨f1, f2, _, _, _, _⟩ := ensureMovement_frame st eid
  exact followerInv_of_frame f1 f2 h

theorem followerInv_removeAttackTarget (st : ServiceState) (eid : Nat) (h : FollowerInv st) :
    FollowerInv (removeAttackTarget st eid) := by
  obtain ⟨f1, f2, _, _, _, _⟩ := removeAttackTarget_frame st eid
  exact followerInv_of_frame f1 f2 h

theorem followerInv_setMovement (st : ServiceState) (eid : Nat) (m : MovementComponent)
    (h : FollowerInv st) : FollowerInv (setMovement st eid m) := by
  obtain ⟨f1, f2, _, _, _, _⟩ := setMovement_frame st eid m
  exact followerInv_of_frame f1 f2 h

theorem followerInv_modifyMovement (st : ServiceState) (eid : Nat)
    (f : MovementComponent → MovementComponent) (h : FollowerInv st) :
    FollowerInv (modifyMovement st eid f) := by
  obtain ⟨f1, f2, _, _, _, _⟩ := modifyMovement_frame st eid f
  exact followerInv_of_frame f1 f2 h

theorem followerInv_setMemberDirect (wc : Bool) (s : ServiceState) (m : MemberInfo)
    (h : FollowerInv s) : FollowerInv (setMemberDirect wc s m) := by
  simp only [setMemberDirect]
  exact followerInv_modifyMovement _ _ _ h

theorem followerInv_resetRegroupMember (s : ServiceState) (m : MemberInfo)
    (h : FollowerInv s) : FollowerInv (resetRegroupMember s m) := by
  simp only [resetRegroupMember]
  obtain ⟨a1, a2, _, _, _, _⟩ := modifyMovement_frame s m.id
    (fun mv => { mv with goalX := m.target.x, goalY := m.target.z })
  obtain ⟨c1, c2, _, _, _, _⟩ := modifyMovement_frame
    (clearPendingRequest
      (modifyMovement s m.id (fun mv => { mv with goalX := m.target.x, goalY := m.target.z }))
      m.id) m.id
    (fun mv => { mv with target_x := m.posX, target_y := m.posZ, hasTarget := false
                         vx := 0, vz := 0, path := [], pathPending := false
                         pendingRequestId := 0 })
  exact followerInv_of_frame c1 c2
    (followerInv_clearPendingRequest _ m.id (followerInv_of_frame a1 a2 h))

theorem followerInv_formationAsync (st : ServiceState) (members : List MemberInfo)
    (opts : MoveOptions) (leader : MemberInfo) (startC endC : Point)
    (h : FollowerInv st) (hmem : leader ∈ members)
    (hnone : ∀ m ∈ members, st.entityToRequest m.id = none) :
    FollowerInv (formationAsync st members opts leader startC endC) := by
  have hsp := formationAsync_spec st members opts leader startC endC
  intro r info hpr m hm
  by_cases hrr : r = st.nextRequestId
  · subst hrr
    rw [hsp.2.2.2.1] at hpr
    injection hpr with hinfo
    subst hinfo
    rcases List.mem_cons.mp hm with hm | hm
    · subst hm
      exact hsp.2.2.2.2.1 leader hmem
    · obtain ⟨m', hm', rfl⟩ := List.mem_map.mp hm
      exact hsp.2.2.2.2.1 m' hm'
  · have hpr_eq : (formationAsync st members opts leader startC endC).pendingRequests r =
        st.pendingRequests r := by
      simp only [formationAsync, allocId]
      rw [congrFun ((registerFold_frame _ _ _).1) r]
      show prUpdate _ st.nextRequestId _ r = _
      unfold prUpdate
      rw [if_neg hrr]
      exact congrFun ((pendingMarkFold_frame _ _ _).1) r
    rw [hpr_eq] at hpr
    have hIH := h r info hpr m hm
    have hnotin : ∀ a ∈ members, ¬(m = a.id) := by
      intro a ha he
      rw [he, hnone a ha] at hIH
      cases hIH
    have her_eq : (formationAsync st members opts leader startC endC).entityToRequest m =
        st.entityToRequest m := by
      simp only [formationAsync, allocId]
      exact (registerFold_er_other _ members m _ hnotin).trans
        (congrFun ((pendingMarkFold_frame _ _ _).2.1) m)
    rw [her_eq]
    exact hIH

theorem followerInv_formationPath (st : ServiceState) (members : List MemberInfo)
    (opts : MoveOptions) (h : FollowerInv st) :
    FollowerInv (formationPath st members opts) := by
  cases members with
  | nil => simpa only [formationPath] using h
  | cons m0 rest =>
    simp only [formationPath]
    have hR : FollowerInv ((m0 :: rest).foldl resetRegroupMember st) :=
      foldl_preserves resetRegroupMember FollowerInv _
        (fun s a _ hs => followerInv_resetRegroupMember s a hs) st h
    have hnone : ∀ m ∈ m0 :: rest,
        ((m0 :: rest).foldl resetRegroupMember st).entityToRequest m.id = none :=
      fun m hm => resetFold_er_none _ m hm st
    repeat' split
    all_goals first
      | exact foldl_preserves (setMemberDirect false) FollowerInv _
          (fun s a _ hs => followerInv_setMemberDirect false s a hs) _ hR
      | exact foldl_preserves (setMemberDirect true) FollowerInv _
          (fun s a _ hs => followerInv_setMemberDirect true s a hs) _ hR
      | exact followerInv_formationAsync _ _ _ _ _ _ hR (electLeader_mem _ _ _) hnone

theorem followerInv_resolvePath (st : ServiceState) (eid : Nat) (tr : TransformComponent)
    (mv : MovementComponent) (opts : MoveOptions) (tgt : Vec2) (h : FollowerInv st) :
    FollowerInv (resolvePath st eid tr mv opts tgt) := by
  simp only [resolvePath]
  repeat' split
  all_goals first
    | exact followerInv_clearPendingRequest _ _ (followerInv_setMovement _ _ _ h)
    | exact followerInv_issueAsyncRequest _ _ _ _ _ _ _ h

theorem followerInv_moveOneUnit (st : ServiceState) (eid : Nat) (tgt : Vec2)
    (opts : MoveOptions) (h : FollowerInv st) : FollowerInv (moveOneUnit st eid tgt opts) := by
  simp only [moveOneUnit]
  repeat' split
  all_goals first
    | exact h
    | exact followerInv_exitHold _ _ h
    | exact followerInv_setMovement _ _ _ (followerInv_checkMatchedPending _ _ _ _ _
        (followerInv_removeAttackTarget _ _
          (followerInv_ensureMovement _ _ (followerInv_exitHold _ _ h))))
    | exact followerInv_setMovement _ _ _ (followerInv_checkMatchedPending _ _ _ _ _
        (followerInv_ensureMovement _ _ (followerInv_exitHold _ _ h)))
    | exact followerInv_resolvePath _ _ _ _ _ _ (followerInv_setMovement _ _ _
        (followerInv_checkMatchedPending _ _ _ _ _ (followerInv_removeAttackTarget _ _
          (followerInv_ensureMovement _ _ (followerInv_exitHold _ _ h)))))
    | exact followerInv_resolvePath _ _ _ _ _ _ (followerInv_setMovement _ _ _
        (followerInv_checkMatchedPending _ _ _ _ _
          (followerInv_ensureMovement _ _ (followerInv_exitHold _ _ h))))

theorem followerInv_moveUnitsCore (st : ServiceState) (units : List Nat)
    (targets : List Vec2) (opts : MoveOptions) (h : FollowerInv st) :
    FollowerInv (moveUnitsCore st units targets opts) := by
  unfold moveUnitsCore
  exact foldl_preserves _ FollowerInv _
    (fun s p _ hs => followerInv_moveOneUnit s p.1 p.2 opts hs) st h

theorem followerInv_buildMemberStep (opts : MoveOptions)
    (acc : ServiceState × List MemberInfo) (p : Nat × Vec2) (h : FollowerInv acc.1) :
    FollowerInv (buildMemberStep opts acc p).1 := by
  simp only [buildMemberStep]
  repeat' split
  all_goals first
    | exact h
    | exact followerInv_exitHold _ _ h
    | exact followerInv_removeAttackTarget _ _
        (followerInv_ensureMovement _ _ (followerInv_exitHold _ _ h))
    | exact followerInv_ensureMovement _ _ (followerInv_exitHold _ _ h)

theorem followerInv_groupPlan (fsqrt : ℚ → ℚ) (st : ServiceState)
    (members : List MemberInfo) (opts : MoveOptions) (h : FollowerInv st) :
    FollowerInv (groupPlan fsqrt st members opts) := by
  simp only [groupPlan]
  repeat' split
  all_goals first
    | exact h
    | exact followerInv_moveUnitsCore _ _ _ _ h
    | exact followerInv_moveUnitsCore _ _ _ _ (followerInv_moveUnitsCore _ _ _ _ h)
    | exact followerInv_formationPath _ _ _ h
    | exact followerInv_formationPath _ _ _ (followerInv_moveUnitsCore _ _ _ _ h)

theorem followerInv_moveGroup (fsqrt : ℚ → ℚ) (st : ServiceState) (units : List Nat)
    (targets : List Vec2) (opts : MoveOptions) (h : FollowerInv st) :
    FollowerInv (moveGroup fsqrt st units targets opts) := by
  have hB : FollowerInv (buildMembers st units targets opts).1 := by
    unfold buildMembers
    exact foldl_preserves (buildMemberStep opts) (fun acc => FollowerInv acc.1) _
      (fun s a _ hs => followerInv_buildMemberStep opts s a hs) (st, []) h
  simp only [moveGroup]
  repeat' split
  all_goals first
    | exact hB
    | exact followerInv_moveUnitsCore _ _ _ _ hB
    | exact followerInv_groupPlan _ _ _ _ hB

theorem followerInv_moveUnits (fsqrt : ℚ → ℚ) (st : ServiceState) (units : List Nat)
    (targets : List Vec2) (opts : MoveOptions) (h : FollowerInv st) :
    FollowerInv (moveUnits fsqrt st units targets opts) := by
  simp only [moveUnits]
  repeat' split
  all_goals first
    | exact h
    | exact followerInv_moveGroup _ _ _ _ _ h
    | exact followerInv_moveUnitsCore _ _ _ _ h

theorem followerInv_processOneResult (pf : Pathfinding) (st : ServiceState)
    (r : Nat × List Point) (h : FollowerInv st) :
    FollowerInv (processOneResult pf st r) := by
  simp only [processOneResult]
  split
  · exact h
  · rename_i info0 hpr0
    intro rr info hprr m hm
    have hprr2 : prUpdate st.pendingRequests r.1 none rr = some info := hprr
    unfold prUpdate at hprr2
    by_cases hrr : rr = r.1
    · rw [if_pos hrr] at hprr2
      cases hprr2
    · rw [if_neg hrr] at hprr2
      have hIH := h rr info hprr2 m hm
      show removeResultEntries r.1 info0 st.entityToRequest m = some rr
      unfold removeResultEntries
      refine (removeFold_preserve_ne r.1 _ m _ ?_).trans hIH
      rw [hIH]
      intro hcon
      injection hcon with hh
      exact hrr hh

theorem followerInv_processPathResults (st : ServiceState)
    (results : List (Nat × List Point)) (h : FollowerInv st) :
    FollowerInv (processPathResults st results) := by
  simp only [processPathResults]
  split
  · exact h
  · exact foldl_preserves _ FollowerInv _
      (fun s r _ hs => followerInv_processOneResult _ s r hs) st h

theorem followerInv_initService (st : ServiceState) (w hgt : Int)
    (walk : Int → Int → Bool) : FollowerInv (initService st w hgt walk) := by
  intro r info hpr m hm
  simp [initService] at hpr

theorem followerInv_applyOp (st : ServiceState) (op : Op) (h : FollowerInv st) :
    FollowerInv (applyOp st op) := by
  cases op with
  | mvUnits fsqrt units targets opts => exact followerInv_moveUnits fsqrt st units targets opts h
  | mvGroup fsqrt units targets opts => exact followerInv_moveGroup fsqrt st units targets opts h
  | procResults results => exact followerInv_processPathResults st results h
  | clearReq eid => exact followerInv_clearPendingRequest st eid h
  | reinit w hgt walk => exact followerInv_initService st w hgt walk

/-- Claim C1 (corrected).  After any operation sequence on a freshly
initialized service, every live request record is consistent in the
follower direction: its owner and every entity listed in its groupMembers
still map to that request id in the entity-to-request ledger.  The converse
direction of the original claim — every entity-to-request entry points at a
live record — is false: superseding one follower's request inside moveUnits
erases the shared record but leaves the other followers' entries dangling. -/
theorem claim_C1 (world : WorldMap) (W H : Int) (walk : Int → Int → Bool)
    (ops : List Op) (rid : Nat) (info : PendingPathRequest)
    (hpr : (runOps (initState world W H walk) ops).pendingRequests rid = some info) :
    ∀ m ∈ info.entity_id :: info.groupMembers,
      (runOps (initState world W H walk) ops).entityToRequest m = some rid := by
  have hinv : FollowerInv (runOps (initState world W H walk) ops) := by
    unfold runOps
    refine foldl_preserves applyOp FollowerInv ops
      (fun s op _ hs => followerInv_applyOp s op hs) _ ?_
    exact followerInv_initService _ _ _ _
  exact hinv rid info hpr

/-- The C1 operation list: one three-member group move. -/
def c1Ops : List Op :=
  [Op.mvGroup (fun q => q) [1, 2, 3] [⟨30, 30⟩, ⟨31, 30⟩, ⟨32, 30⟩] c7Opts]

/-- The C1 counterexample operation list: the group move, then a single-unit
move of follower 2 that supersedes the shared request. -/
def c1BadOps : List Op :=
  [Op.mvGroup (fun q => q) [1, 2, 3] [⟨30, 30⟩, ⟨31, 30⟩, ⟨32, 30⟩] c7Opts,
   Op.mvUnits (fun q => q) [2] [⟨-30, -30⟩] c7Opts]

/-- Counterexample to claim C1 as stated: after superseding follower 2's
request, follower 1 still maps to request id 1 although the record for id 1
has been erased — a dangling entity-to-request entry. -/
theorem claim_C1_counterexample :
    (runOps (initState c7World 10 10 (fun _ _ => true)) c1BadOps).entityToRequest 1 =
      some 1 ∧
    ((runOps (initState c7World 10 10 (fun _ _ => true)) c1BadOps).pendingRequests 1).isNone =
      true := by
  exact ⟨by decide, by decide⟩

/-- Witness for the amended claim C1: after the concrete group move, the
live record for request 1 lists members [1,2,3], and member 3 indeed maps
back to request 1. -/
theorem claim_C1_witness :
    (runOps (initState c7World 10 10 (fun _ _ => true)) c1Ops).entityToRequest 3 = some 1 := by
  have h := claim_C1 c7World 10 10 (fun _ _ => true) c1Ops 1
    { entity_id := 2, target := ⟨31, 30⟩, options := c7Opts
      groupMembers := [1, 2, 3], groupTargets := [⟨30, 30⟩, ⟨31, 30⟩, ⟨32, 30⟩] }
    (by decide)
  exact h 3 (by decide)

end CommandService
